import Mathlib

/-!
Verification of the modpub core against its specification.

The Python sources are embedded shallowly:

* Python `str` values become `Str := List Char`; the helpers `pyStrip`,
  `pyRstrip`, `pyLower`, `findIn` and friends mirror `str.strip`,
  `str.rstrip`, `str.lower` and `str.find` on that representation.
* JSON values (the codomain of `json.loads` / domain of `json.dumps`)
  become the inductive `Json`; the standard library pair
  `json.dumps`/`json.loads` is an external collaborator whose contract
  (`loads (dumps v) = v` for JSON-representable `v`) lets serialization be
  modelled as the identity on `Json` trees.  Where a serialized string is
  needed (`metadata.json`), the `dumps` function is taken as an abstract
  parameter.
* The process-wide license tables of `modpub.core.licenses` become an
  explicit `LicTables` state threaded through the registration and lookup
  functions.
* Filesystem state becomes `FS`, an association list from paths to file
  contents plus a directory set; `pathlib` resolution (`resolve`,
  `expanduser`) is modelled as the identity on already-normalized paths,
  and `hashlib` content hashing is an abstract parameter `h : Str → Str`.
-/

set_option maxHeartbeats 1000000
set_option maxRecDepth 100000

namespace Modpub

/-! ## Python string primitives -/

/-- Python strings, as lists of characters. -/
abbrev Str := List Char

/-- Literal helper: the characters of a Lean string literal. -/
def chars (s : String) : Str := s.data

/-- The Python whitespace class (`str.strip` default / regex `\s`, ASCII part). -/
def isWs (c : Char) : Bool :=
  c == ' ' || c == '\t' || c == '\n' || c == '\r' || c == '\x0b' || c == '\x0c'

/-- `str.lstrip()` restricted to a predicate. -/
def lstripWith (p : Char → Bool) (s : Str) : Str := s.dropWhile p

/-- `str.rstrip()` restricted to a predicate. -/
def rstripWith (p : Char → Bool) (s : Str) : Str := (s.reverse.dropWhile p).reverse

/-- Python `s.strip()`. -/
def pyStrip (s : Str) : Str := lstripWith isWs (rstripWith isWs s)

/-- Python `s.rstrip()`. -/
def pyRstrip (s : Str) : Str := rstripWith isWs s

/-- Python `s.lstrip()`. -/
def pyLstrip (s : Str) : Str := lstripWith isWs s

/-- Python `s.lower()` (ASCII). -/
def pyLower (s : Str) : Str := s.map Char.toLower

/-- Python `s.strip('\n')`: newline characters removed from both ends. -/
def stripNl (s : Str) : Str :=
  lstripWith (· == '\n') (rstripWith (· == '\n') s)

/-- Left strip of newline characters only. -/
def lstripNl (s : Str) : Str := lstripWith (· == '\n') s

/-- Index of the first occurrence of `needle` in `hay` (Python `hay.find(needle)`,
with `none` for `-1`).  The empty needle matches at position 0, as in Python. -/
def findIn (needle : Str) : Str → Option Nat
  | [] => if needle = [] then some 0 else none
  | c :: rest =>
    if needle.isPrefixOf (c :: rest) then some 0
    else (findIn needle rest).map (· + 1)

/-- Python `hay.find(needle, start)`. -/
def pyFind (hay needle : Str) (start : Nat) : Option Nat :=
  (findIn needle (hay.drop start)).map (· + start)

/-! ## JSON values -/

/-- JSON values: the image of `json.loads` on the data this program handles. -/
inductive Json where
  | null : Json
  | bool (b : Bool) : Json
  | num (n : Int) : Json
  | str (s : Str) : Json
  | arr (elems : List Json) : Json
  | obj (fields : List (Str × Json)) : Json

instance : Inhabited Json := ⟨.null⟩

/-- Python truthiness of a JSON value (`if value:`). -/
def truthy : Json → Bool
  | .null => false
  | .bool b => b
  | .num n => n != 0
  | .str s => !s.isEmpty
  | .arr xs => !xs.isEmpty
  | .obj fs => !fs.isEmpty

/-- Association-list lookup (first binding wins), the model of Python
`dict.__getitem__` / `dict.get`. -/
def alGet {β : Type} : List (Str × β) → Str → Option β
  | [], _ => none
  | (a, b) :: rest, k => if a = k then some b else alGet rest k

/-- Association-list update: replace the existing binding in place or append,
the model of Python `dict.__setitem__` (insertion order preserved). -/
def alSet {β : Type} : List (Str × β) → Str → β → List (Str × β)
  | [], k, v => [(k, v)]
  | (a, b) :: rest, k, v =>
    if a = k then (a, v) :: rest else (a, b) :: alSet rest k v

/-! ## Canonical data model (`modpub/core/model.py`) -/

/-- Author/creator of the design. -/
structure Author where
  name : Str
  url : Option Str := none
  user_id : Option Str := none
deriving DecidableEq

/-- License for the design (canonicalized if possible). -/
structure License where
  key : Str
  name : Option Str := none
  url : Option Str := none
deriving DecidableEq

/-- Design file (STL/SCAD/3MF/etc.). -/
structure FileAsset where
  filename : Str
  path : Option Str := none
  url : Option Str := none
  sha256 : Option Str := none
  kind : Str := chars "model"
  description : Option Str := none
deriving DecidableEq

/-- Image/photo/render asset. -/
structure ImageAsset where
  filename : Str
  path : Option Str := none
  url : Option Str := none
  caption : Option Str := none
  sha256 : Option Str := none
deriving DecidableEq

/-- Link to an upstream model this is derived from. -/
structure Derivative where
  source_url : Str
  source_platform : Option Str := none
  source_id : Option Str := none
deriving DecidableEq

/-- Canonical internal representation of a 3D design/model. -/
structure Design where
  title : Str
  description_md : Str := []
  instructions_md : Str := []
  tags : List Str := []
  categories : List Str := []
  license : Option License := none
  author : Option Author := none
  files : List FileAsset := []
  images : List ImageAsset := []
  derivatives : List Derivative := []
  platform : Option Str := none
  platform_id : Option Str := none
  public_url : Option Str := none
  extra : List (Str × Json) := []

/-! ### Serialization (`Design.to_json`)

`dataclasses.asdict` recursively turns the aggregate into plain
dicts/lists; `json.dumps` then renders that tree.  The tree itself is the
faithful content of `to_json`; the textual rendering is the stdlib's. -/

/-- `asdict` image of an optional string field. -/
def optStrJ : Option Str → Json
  | none => .null
  | some s => .str s

/-- `asdict` on an `Author`. -/
def Author.to_json_val (a : Author) : Json :=
  .obj [(chars "name", .str a.name), (chars "url", optStrJ a.url),
        (chars "user_id", optStrJ a.user_id)]

/-- `asdict` on a `License`. -/
def License.to_json_val (l : License) : Json :=
  .obj [(chars "key", .str l.key), (chars "name", optStrJ l.name),
        (chars "url", optStrJ l.url)]

/-- `asdict` on a `FileAsset`. -/
def FileAsset.to_json_val (f : FileAsset) : Json :=
  .obj [(chars "filename", .str f.filename), (chars "path", optStrJ f.path),
        (chars "url", optStrJ f.url), (chars "sha256", optStrJ f.sha256),
        (chars "kind", .str f.kind), (chars "description", optStrJ f.description)]

/-- `asdict` on an `ImageAsset`. -/
def ImageAsset.to_json_val (im : ImageAsset) : Json :=
  .obj [(chars "filename", .str im.filename), (chars "path", optStrJ im.path),
        (chars "url", optStrJ im.url), (chars "caption", optStrJ im.caption),
        (chars "sha256", optStrJ im.sha256)]

/-- `asdict` on a `Derivative`. -/
def Derivative.to_json_val (dv : Derivative) : Json :=
  .obj [(chars "source_url", .str dv.source_url),
        (chars "source_platform", optStrJ dv.source_platform),
        (chars "source_id", optStrJ dv.source_id)]

/-- `Design.to_json`, as the JSON tree passed to `json.dumps`. -/
def Design.to_json_val (d : Design) : Json :=
  .obj [(chars "title", .str d.title),
        (chars "description_md", .str d.description_md),
        (chars "instructions_md", .str d.instructions_md),
        (chars "tags", .arr (d.tags.map .str)),
        (chars "categories", .arr (d.categories.map .str)),
        (chars "license", match d.license with
          | none => .null
          | some l => l.to_json_val),
        (chars "author", match d.author with
          | none => .null
          | some a => a.to_json_val),
        (chars "files", .arr (d.files.map FileAsset.to_json_val)),
        (chars "images", .arr (d.images.map ImageAsset.to_json_val)),
        (chars "derivatives", .arr (d.derivatives.map Derivative.to_json_val)),
        (chars "platform", optStrJ d.platform),
        (chars "platform_id", optStrJ d.platform_id),
        (chars "public_url", optStrJ d.public_url),
        (chars "extra", .obj d.extra)]

/-! ### Deserialization (`Design.from_json`)

`Design.from_json` first runs `json.loads` (yielding a `Json` tree) and
then rebuilds the dataclasses.  Steps that would raise in Python
(`TypeError` from a keyword mismatch, iterating a non-list) return `none`.
Where Python's untyped dicts would admit an ill-typed field (e.g. a falsy
non-null `license` value kept verbatim by the truthiness guard), the typed
embedding also returns `none`; no such value is produced by `to_json`. -/

/-- Read a JSON value as a required string argument. -/
def jStr? : Json → Option Str
  | .str s => some s
  | _ => none

/-- Read a JSON value as an `Optional[str]` argument. -/
def jOptStr? : Json → Option (Option Str)
  | .null => some none
  | .str s => some (some s)
  | _ => none

/-- Field lookup giving the argument for an `Optional[str] = None` parameter:
an absent key falls back to the dataclass default. -/
def argOptStr (fields : List (Str × Json)) (k : Str) : Option (Option Str) :=
  match alGet fields k with
  | none => some none
  | some v => jOptStr? v

/-- Field lookup for a required `str` parameter. -/
def argStr (fields : List (Str × Json)) (k : Str) : Option Str :=
  (alGet fields k).bind jStr?

/-- List comprehension `[f(x) for x in xs]` over Option-failing `f`:
the first failure aborts, as the corresponding Python raises. -/
def parseList {α : Type} (f : Json → Option α) : List Json → Option (List α)
  | [] => some []
  | j :: rest =>
    match f j with
    | none => none
    | some a => (parseList f rest).map (a :: ·)

/-- `License(**lic)`. -/
def License.from_json_val (j : Json) : Option License :=
  match j with
  | .obj fs =>
    match argStr fs (chars "key"), argOptStr fs (chars "name"),
          argOptStr fs (chars "url") with
    | some key, some name, some url => some ⟨key, name, url⟩
    | _, _, _ => none
  | _ => none

/-- `Author(**auth)`. -/
def Author.from_json_val (j : Json) : Option Author :=
  match j with
  | .obj fs =>
    match argStr fs (chars "name"), argOptStr fs (chars "url"),
          argOptStr fs (chars "user_id") with
    | some name, some url, some uid => some ⟨name, url, uid⟩
    | _, _, _ => none
  | _ => none

/-- `FileAsset(**x)`. -/
def FileAsset.from_json_val (j : Json) : Option FileAsset :=
  match j with
  | .obj fs =>
    match argStr fs (chars "filename"), argOptStr fs (chars "path"),
          argOptStr fs (chars "url"), argOptStr fs (chars "sha256"),
          argOptStr fs (chars "description") with
    | some fn, some path, some url, some sha, some desc =>
      match alGet fs (chars "kind") with
      | none => some ⟨fn, path, url, sha, chars "model", desc⟩
      | some kv =>
        match jStr? kv with
        | some kind => some ⟨fn, path, url, sha, kind, desc⟩
        | none => none
    | _, _, _, _, _ => none
  | _ => none

/-- `ImageAsset(**x)`. -/
def ImageAsset.from_json_val (j : Json) : Option ImageAsset :=
  match j with
  | .obj fs =>
    match argStr fs (chars "filename"), argOptStr fs (chars "path"),
          argOptStr fs (chars "url"), argOptStr fs (chars "caption"),
          argOptStr fs (chars "sha256") with
    | some fn, some path, some url, some cap, some sha =>
      some ⟨fn, path, url, cap, sha⟩
    | _, _, _, _, _ => none
  | _ => none

/-- `Derivative(**x)`. -/
def Derivative.from_json_val (j : Json) : Option Derivative :=
  match j with
  | .obj fs =>
    match argStr fs (chars "source_url"), argOptStr fs (chars "source_platform"),
          argOptStr fs (chars "source_id") with
    | some su, some sp, some sid => some ⟨su, sp, sid⟩
    | _, _, _ => none
  | _ => none

/-- The `data.get(key, [])` list fields of `Design.from_json`. -/
def argList (fields : List (Str × Json)) (k : Str) : Option (List Json) :=
  match alGet fields k with
  | none => some []
  | some (.arr xs) => some xs
  | some _ => none

/-- The truthiness-guarded optional sub-object fields
(`if (lic := data.get("license")): ...`). -/
def argGuarded {α : Type} (f : Json → Option α) (fields : List (Str × Json))
    (k : Str) : Option (Option α) :=
  match alGet fields k with
  | none => some none
  | some v =>
    if truthy v then (f v).map some
    else match v with
      | .null => some none
      | _ => none

/-- A required plain-string field of `Design(**data)` with a dataclass
default (`description_md: str = ""`). -/
def argStrD (fields : List (Str × Json)) (k : Str) (dflt : Str) : Option Str :=
  match alGet fields k with
  | none => some dflt
  | some v => jStr? v

/-- A `List[str]` field of `Design(**data)` with a `[]` default. -/
def argStrList (fields : List (Str × Json)) (k : Str) : Option (List Str) :=
  match alGet fields k with
  | none => some []
  | some (.arr xs) => parseList jStr? xs
  | some _ => none

/-- The `extra: Dict[str, Any]` field with a `{}` default. -/
def argExtra (fields : List (Str × Json)) (k : Str) : Option (List (Str × Json)) :=
  match alGet fields k with
  | none => some []
  | some (.obj fs) => some fs
  | some _ => none

/-- `Design.from_json`, on the JSON tree produced by `json.loads`. -/
def Design.from_json_val (j : Json) : Option Design :=
  match j with
  | .obj data =>
    match argGuarded License.from_json_val data (chars "license"),
          argGuarded Author.from_json_val data (chars "author") with
    | some license, some author =>
      match (argList data (chars "files")).bind (parseList FileAsset.from_json_val),
            (argList data (chars "images")).bind (parseList ImageAsset.from_json_val),
            (argList data (chars "derivatives")).bind (parseList Derivative.from_json_val) with
      | some files, some images, some derivatives =>
        match argStr data (chars "title"),
              argStrD data (chars "description_md") [],
              argStrD data (chars "instructions_md") [],
              argStrList data (chars "tags"),
              argStrList data (chars "categories") with
        | some title, some dmd, some imd, some tags, some cats =>
          match argOptStr data (chars "platform"),
                argOptStr data (chars "platform_id"),
                argOptStr data (chars "public_url"),
                argExtra data (chars "extra") with
          | some plat, some pid, some purl, some extra =>
            some ⟨title, dmd, imd, tags, cats, license, author, files, images,
                  derivatives, plat, pid, purl, extra⟩
          | _, _, _, _ => none
        | _, _, _, _, _ => none
      | _, _, _ => none
    | _, _ => none
  | _ => none

/-! ## License registry (`modpub/core/licenses.py`)

The module-global tables `_CANONICAL`, `_PLATFORM_OUTBOUND` and
`_PLATFORM_INBOUND` become an explicit `LicTables` value threaded through
registration and lookup.  `_CANONICAL`'s base contents are fixed here as in
the source (`register_canonical_license` is not exercised by the claims). -/

def licCC0 : License :=
  ⟨chars "CC0-1.0", some (chars "CC0 1.0 Universal"),
   some (chars "https://creativecommons.org/publicdomain/zero/1.0/")⟩

def licCCBY : License :=
  ⟨chars "CC-BY-4.0", some (chars "Creative Commons Attribution 4.0"),
   some (chars "https://creativecommons.org/licenses/by/4.0/")⟩

def licCCBYSA : License :=
  ⟨chars "CC-BY-SA-4.0", some (chars "Creative Commons Attribution-ShareAlike 4.0"),
   some (chars "https://creativecommons.org/licenses/by-sa/4.0/")⟩

def licCCBYNC : License :=
  ⟨chars "CC-BY-NC-4.0", some (chars "Creative Commons Attribution-NonCommercial 4.0"),
   some (chars "https://creativecommons.org/licenses/by-nc/4.0/")⟩

def licCCBYND : License :=
  ⟨chars "CC-BY-ND-4.0", some (chars "Creative Commons Attribution-NoDerivatives 4.0"),
   some (chars "https://creativecommons.org/licenses/by-nd/4.0/")⟩

def licCCBYNCSA : License :=
  ⟨chars "CC-BY-NC-SA-4.0",
   some (chars "Creative Commons Attribution-NonCommercial-ShareAlike 4.0"),
   some (chars "https://creativecommons.org/licenses/by-nc-sa/4.0/")⟩

def licCCBYNCND : License :=
  ⟨chars "CC-BY-NC-ND-4.0",
   some (chars "Creative Commons Attribution-NonCommercial-NoDerivatives 4.0"),
   some (chars "https://creativecommons.org/licenses/by-nc-nd/4.0/")⟩

def licGPL3 : License :=
  ⟨chars "GPL-3.0", some (chars "GNU General Public License v3.0"),
   some (chars "https://www.gnu.org/licenses/gpl-3.0.en.html")⟩

def licLGPL : License :=
  ⟨chars "LGPL-2.1", some (chars "GNU Lesser General Public License v2.1"),
   some (chars "https://www.gnu.org/licenses/old-licenses/lgpl-2.1.en.html")⟩

def licBSD : License :=
  ⟨chars "BSD", some (chars "BSD License"),
   some (chars "https://opensource.org/licenses/BSD-3-Clause")⟩

/-- The canonical license map `_CANONICAL` (input string → License). -/
def CANONICAL : List (Str × License) :=
  [(chars "cc0", licCC0), (chars "cc0-1.0", licCC0),
   (chars "cc-by", licCCBY), (chars "cc-by-4.0", licCCBY),
   (chars "creative commons - attribution", licCCBY),
   (chars "cc-by-sa", licCCBYSA), (chars "cc-by-sa-4.0", licCCBYSA),
   (chars "creative commons - attribution - share alike", licCCBYSA),
   (chars "cc-by-nc", licCCBYNC), (chars "cc-by-nc-4.0", licCCBYNC),
   (chars "cc-by-nd", licCCBYND), (chars "cc-by-nd-4.0", licCCBYND),
   (chars "cc-by-nc-sa", licCCBYNCSA), (chars "cc-by-nc-sa-4.0", licCCBYNCSA),
   (chars "cc-by-nc-nd", licCCBYNCND), (chars "cc-by-nc-nd-4.0", licCCBYNCND),
   (chars "gpl-3.0", licGPL3), (chars "gpl3", licGPL3),
   (chars "lgpl-2.1", licLGPL), (chars "lgpl", licLGPL),
   (chars "bsd license", licBSD), (chars "bsd", licBSD)]

/-- The platform mapping tables `_PLATFORM_OUTBOUND` / `_PLATFORM_INBOUND`. -/
structure LicTables where
  outbound : List (Str × List (Str × Str)) := []
  inbound : List (Str × List (Str × Str)) := []
deriving DecidableEq

/-- The starting state of the module (both tables empty). -/
def LicTables.empty : LicTables := {}

/-- Lookup in a nested platform table. -/
def nestGet (d : List (Str × List (Str × Str))) (p k : Str) : Option Str :=
  (alGet d p).bind (fun inner => alGet inner k)

/-- `if platform not in d: d[platform] = {}` followed by `d[platform][k] = v`. -/
def nestSet (d : List (Str × List (Str × Str))) (p k v : Str) :
    List (Str × List (Str × Str)) :=
  let d' := if (alGet d p).isSome then d else alSet d p []
  alSet d' p (alSet ((alGet d' p).getD []) k v)

/-- `normalize_license_name(name)`. -/
def normalize_license_name (name : Option Str) : Option License :=
  match name with
  | none => none
  | some s => if s = [] then none else alGet CANONICAL (pyLower (pyStrip s))

/-- `normalize_license(lic)` on the `License`-typed branch (the `str` branch
is not reachable from the call sites the claims cover). -/
def normalize_license (lic : Option License) : Option License :=
  match lic with
  | none => none
  | some l =>
    match normalize_license_name (some l.key) with
    | some res => some res
    | none =>
      match normalize_license_name l.name with
      | some res => some res
      | none => some l

/-- `map_for_platform(license_obj, platform)`. -/
def map_for_platform (st : LicTables) (license_obj : Option License)
    (platform : Str) : Option Str :=
  match license_obj with
  | none => none
  | some l => nestGet st.outbound platform l.key

/-- `map_from_platform(platform_license, platform)`. -/
def map_from_platform (st : LicTables) (platform_license : Option Str)
    (platform : Str) : Option Str :=
  match platform_license with
  | none => none
  | some s =>
    if s = [] then none
    else nestGet st.inbound platform (pyLower (pyStrip s))

/-- `register_platform_license_mapping(platform, canonical_key, platform_id)`. -/
def register_platform_license_mapping (st : LicTables)
    (platform canonical_key platform_id : Str) : LicTables :=
  { outbound := nestSet st.outbound platform canonical_key platform_id,
    inbound := nestSet st.inbound platform (pyLower platform_id) canonical_key }

/-- `register_platform_inbound_mapping(platform, platform_id, canonical_key)`. -/
def register_platform_inbound_mapping (st : LicTables)
    (platform platform_id canonical_key : Str) : LicTables :=
  { st with inbound := nestSet st.inbound platform (pyLower platform_id) canonical_key }

/-- One bidirectional registration call, as data. -/
structure Reg where
  platform : Str
  canonical_key : Str
  platform_id : Str
deriving DecidableEq

/-- A sequence of `register_platform_license_mapping` calls. -/
def applyRegs (regs : List Reg) (st : LicTables) : LicTables :=
  regs.foldl (fun s r => register_platform_license_mapping s r.platform
    r.canonical_key r.platform_id) st

/-! ## Thingiverse backend (`modpub/plugins/thingiverse/plugin.py`)

Only the pure payload construction and the control flow of the upload loop
are embedded; the HTTP calls themselves are external collaborators whose
outcomes are supplied as data (`AssetEnv`). -/

/-- `ThingiversePlugin.register_license_mappings()`: the exact sequence of
registration calls, applied to a registry state. -/
def thingiverse_register (st : LicTables) : LicTables :=
  let tv := chars "thingiverse"
  let st := register_platform_license_mapping st tv (chars "CC0-1.0") (chars "cc-zero")
  let st := register_platform_license_mapping st tv (chars "CC-BY-4.0") (chars "cc")
  let st := register_platform_license_mapping st tv (chars "CC-BY-SA-4.0") (chars "cc-sa")
  let st := register_platform_license_mapping st tv (chars "CC-BY-NC-4.0") (chars "cc-nc")
  let st := register_platform_license_mapping st tv (chars "CC-BY-ND-4.0") (chars "cc-nd")
  let st := register_platform_license_mapping st tv (chars "CC-BY-NC-SA-4.0") (chars "cc-nc-sa")
  let st := register_platform_license_mapping st tv (chars "CC-BY-NC-ND-4.0") (chars "cc-nc-nd")
  let st := register_platform_license_mapping st tv (chars "GPL-3.0") (chars "gpl")
  let st := register_platform_license_mapping st tv (chars "LGPL-2.1") (chars "lgpl")
  let st := register_platform_license_mapping st tv (chars "BSD") (chars "bsd")
  let st := register_platform_inbound_mapping st tv
    (chars "creative commons - public domain dedication") (chars "CC0-1.0")
  let st := register_platform_inbound_mapping st tv
    (chars "creative commons - attribution") (chars "CC-BY-4.0")
  let st := register_platform_inbound_mapping st tv
    (chars "creative commons - attribution - share alike") (chars "CC-BY-SA-4.0")
  let st := register_platform_inbound_mapping st tv
    (chars "creative commons - attribution - no derivatives") (chars "CC-BY-ND-4.0")
  let st := register_platform_inbound_mapping st tv
    (chars "creative commons - attribution - non-commercial") (chars "CC-BY-NC-4.0")
  let st := register_platform_inbound_mapping st tv
    (chars "creative commons - attribution - non-commercial - share alike")
    (chars "CC-BY-NC-SA-4.0")
  let st := register_platform_inbound_mapping st tv
    (chars "creative commons - attribution - non-commercial - no derivatives")
    (chars "CC-BY-NC-ND-4.0")
  let st := register_platform_inbound_mapping st tv (chars "gnu - gpl") (chars "GPL-3.0")
  let st := register_platform_inbound_mapping st tv (chars "gnu - lgpl") (chars "LGPL-2.1")
  let st := register_platform_inbound_mapping st tv (chars "bsd license") (chars "BSD")
  st

/-- The registry state after the Thingiverse plugin registers its mappings. -/
def thingiverse_tables : LicTables := thingiverse_register LicTables.empty

/-- `ValidationError` raised during a write. -/
inductive WriteError where
  | validation (msg : Str)
deriving DecidableEq

/-- How the create branch settled the payload's license field. -/
inductive LicLog where
  | mapped
  | defaulted
deriving DecidableEq

/-- The creation payload built by `ThingiversePlugin.write` in create mode. -/
structure CreatePayload where
  name : Str
  description : Str
  instructions : Str
  is_wip : Bool
  category : Str
  tags : Option (List Str)
  license : Str
deriving DecidableEq

/-- The create branch of `ThingiversePlugin.write` up to the `create_thing`
call: cleaning, validation and license resolution.  The returned `LicLog`
records whether the license step logged a debug line (mapped) or a warning
(fell back to the `"cc"` default). -/
def thingiverse_create_payload (st : LicTables) (d : Design) :
    Except WriteError (CreatePayload × LicLog) :=
  let description := pyStrip d.description_md
  let instructions := pyStrip d.instructions_md
  let tags := (d.tags.filter (fun t => !t.isEmpty && !(pyStrip t).isEmpty)).map pyStrip
  if d.title.isEmpty || (pyStrip d.title).isEmpty then
    .error (.validation (chars "Design title is required"))
  else
    let base : CreatePayload :=
      { name := pyStrip d.title,
        description := if !description.isEmpty then description else chars "A 3D design",
        instructions := if !instructions.isEmpty then instructions
          else chars "Print with standard settings",
        is_wip := false,
        category := chars "other",
        tags := if !tags.isEmpty then some tags else none,
        license := chars "cc" }
    let normalized_license := normalize_license d.license
    match map_for_platform st normalized_license (chars "thingiverse") with
    | some lic_out => .ok ({ base with license := lic_out }, .mapped)
    | none => .ok ({ base with license := chars "cc" }, .defaulted)

/-- The partial-update payload built by `ThingiversePlugin.write` in update
mode.  `license` is present only when `map_for_platform(design.license, ...)`
returns a truthy value (the source guards with `if lic_out:`). -/
structure UpdatePayload where
  name : Str
  description : Str
  instructions : Str
  tags : List Str
  license : Option Str
deriving DecidableEq

/-- The update branch of `ThingiversePlugin.write` up to the `update_thing`
call. -/
def thingiverse_update_payload (st : LicTables) (d : Design) : UpdatePayload :=
  { name := d.title,
    description := d.description_md,
    instructions := d.instructions_md,
    tags := d.tags,
    license :=
      match map_for_platform st d.license (chars "thingiverse") with
      | some lic_out => if !lic_out.isEmpty then some lic_out else none
      | none => none }

/-! ### The per-asset upload loop -/

/-- The JSON body of a successful `initiate_file_upload` response, projected
to the fields the loop reads: `init.get("action")` and `init.get("fields")`. -/
structure InitResp where
  action : Option Str := none
  fields : Option (List (Str × Str)) := none
deriving DecidableEq

instance {ε α : Type} [DecidableEq ε] [DecidableEq α] : DecidableEq (Except ε α) :=
  fun x y =>
    match x, y with
    | .error a, .error b =>
      if h : a = b then .isTrue (congrArg Except.error h)
      else .isFalse (fun hh => h (Except.error.inj hh))
    | .ok a, .ok b =>
      if h : a = b then .isTrue (congrArg Except.ok h)
      else .isFalse (fun hh => h (Except.ok.inj hh))
    | .error _, .ok _ => .isFalse (fun hh => Except.noConfusion hh)
    | .ok _, .error _ => .isFalse (fun hh => Except.noConfusion hh)

/-- The externally determined outcomes of the network calls made for one
asset: whether `asset.path` names a readable file, the initiate call's result
(`.error` for a raised exception), and whether the transfer / finalize POSTs
return success status (`raise_for_status` raises otherwise). -/
structure AssetEnv where
  isFile : Bool
  init : Except Unit InitResp
  transferOk : Bool
  finalizeOk : Bool
deriving DecidableEq

/-- How the loop body disposed of one asset. -/
inductive UploadOutcome where
  | skippedNoFile
  | skippedInit
  | uploadedNoFinalize
  | uploaded
deriving DecidableEq

/-- An abort raised out of the loop by `raise_for_status`. -/
inductive UploadError where
  | transferFailed (filename : Str)
  | finalizeFailed (filename : Str)
deriving DecidableEq

/-- A step-(1) response that is missing the upload target or the form fields
(`if not upload_url or not form_fields: continue`). -/
def initMissing (r : InitResp) : Bool :=
  r.action = none || r.action = some [] || (r.fields.getD []).isEmpty

/-- The loop body for a single asset. -/
def upload_asset (a : FileAsset) (env : AssetEnv) :
    Except UploadError UploadOutcome :=
  if !env.isFile then .ok .skippedNoFile
  else
    match env.init with
    | .error _ => .ok .skippedInit
    | .ok resp =>
      let form_fields := resp.fields.getD []
      let success_redirect := alGet form_fields (chars "success_action_redirect")
      if initMissing resp then .ok .skippedInit
      else if !env.transferOk then .error (.transferFailed a.filename)
      else
        match success_redirect with
        | some sr =>
          if !sr.isEmpty then
            if !env.finalizeOk then .error (.finalizeFailed a.filename)
            else .ok .uploaded
          else .ok .uploadedNoFinalize
        | none => .ok .uploadedNoFinalize

/-- The `for asset in design.files:` upload loop; an `.error` from the body
aborts the remainder of the write. -/
def upload_loop : List (FileAsset × AssetEnv) →
    Except UploadError (List (Str × UploadOutcome))
  | [] => .ok []
  | (a, env) :: rest =>
    match upload_asset a env with
    | .error e => .error e
    | .ok o => (upload_loop rest).map ((a.filename, o) :: ·)

/-- A step-(1) failure for an asset the loop visits: the initiate call
raised, or its response was missing the upload target or form fields. -/
def initFailed (env : AssetEnv) : Bool :=
  match env.init with
  | .error _ => true
  | .ok r => initMissing r

/-- Whether step (3) runs for this asset: the form fields carry a truthy
`success_action_redirect`. -/
def finalizeRuns (env : AssetEnv) : Bool :=
  match env.init with
  | .error _ => false
  | .ok r =>
    match alGet (r.fields.getD []) (chars "success_action_redirect") with
    | some sr => !sr.isEmpty
    | none => false

/-! ## Local directory backend (`modpub/plugins/localdir/plugin.py`) -/

/-- README marker `<!-- modpub:begin:description -->`. -/
def MD_DESC_BEGIN : Str := chars "<!-- modpub:begin:description -->"

/-- README marker `<!-- modpub:end:description -->`. -/
def MD_DESC_END : Str := chars "<!-- modpub:end:description -->"

/-- README marker `<!-- modpub:begin:instructions -->`. -/
def MD_INSTR_BEGIN : Str := chars "<!-- modpub:begin:instructions -->"

/-- README marker `<!-- modpub:end:instructions -->`. -/
def MD_INSTR_END : Str := chars "<!-- modpub:end:instructions -->"

/-- `_render_readme(title, description, instructions)`. -/
def render_readme (title description instructions : Str) : Str :=
  let lines : List Str :=
    (if !title.isEmpty then [chars "# " ++ title ++ chars "\n"] else []) ++
    [MD_DESC_BEGIN,
     pyRstrip description ++ chars "\n",
     MD_DESC_END ++ chars "\n",
     chars "## Print Instructions\n",
     MD_INSTR_BEGIN,
     pyRstrip instructions ++ chars "\n",
     MD_INSTR_END ++ chars "\n"]
  List.intercalate (chars "\n") lines

/-- `_extract_between(text, start, end)`. -/
def extract_between (text start fin : Str) : Option Str :=
  match pyFind text start 0 with
  | none => none
  | some s0 =>
    let s := s0 + start.length
    match pyFind text fin s with
    | none => none
    | some e => some (stripNl ((text.drop s).take (e - s)))

/-! ### The heading heuristic (`_PRINT_INSTR_HEADINGS` and `re.search`)

Each pattern `^##\s*w1\s*w2\s*$` is compiled with
`re.IGNORECASE | re.MULTILINE`, so `^`/`$` anchor at line boundaries while
`\s` still matches newlines.  `re.search` scans candidate start positions
left to right; the `^` anchor restricts real work to line starts.  Between
two tokens whose adjacent characters are disjoint from `\s`, greedy `\s*`
consumption is deterministic; before the final `$`, greedy matching settles
on the run's last newline (or the end of the string), which
`lastNlIdx`/`matchTail` reproduce. -/

/-- The heading patterns, as their case-normalized literal words. -/
def PRINT_INSTR_HEADINGS : List (List Str) :=
  [[chars "print", chars "instructions"],
   [chars "print", chars "settings"],
   [chars "instructions"],
   [chars "printing"]]

/-- Length of the greedy `\s*` run at the front of `s`. -/
def wsRun (s : Str) : Nat := (s.takeWhile isWs).length

/-- Case-insensitive literal match of word `w` at the front of `s`. -/
def matchWordCI (w s : Str) : Bool := w.isPrefixOf (pyLower s)

/-- Index of the last `'\n'` in a string, if any. -/
def lastNlIdx : Str → Option Nat
  | [] => none
  | c :: rest =>
    match lastNlIdx rest with
    | some k => some (k + 1)
    | none => if c = '\n' then some 0 else none

/-- Matches `(\s*wᵢ)*\s*$` against `s`; `acc` characters were already
consumed.  Returns the offset of the match end (`m.end() - m.start()`). -/
def matchTail : List Str → Str → Nat → Option Nat
  | [], s, acc =>
    let r := wsRun s
    if r = s.length then some (acc + r)
    else
      match lastNlIdx (s.take r) with
      | some k => some (acc + k)
      | none => none
  | w :: ws, s, acc =>
    let r := wsRun s
    let s' := s.drop r
    if matchWordCI w s' then matchTail ws (s'.drop w.length) (acc + r + w.length)
    else none

/-- Attempt to match one heading pattern at a line start; `s` is the suffix
of the text from that position. -/
def matchHeading (words : List Str) (s : Str) : Option Nat :=
  if (chars "##").isPrefixOf s then matchTail words (s.drop 2) 2 else none

/-- Scan successive line starts for the leftmost match of one pattern.
`fuel` bounds the recursion; every step strictly shortens the suffix, so
`s.length + 1` is always enough. -/
def searchLines (words : List Str) : Nat → Str → Nat → Option (Nat × Nat)
  | 0, _, _ => none
  | fuel + 1, s, pos =>
    match matchHeading words s with
    | some e => some (pos, pos + e)
    | none =>
      match findIn (chars "\n") s with
      | none => none
      | some j => searchLines words fuel (s.drop (j + 1)) (pos + j + 1)

/-- `re.search(pat, text, re.IGNORECASE | re.MULTILINE)`, returning
`(m.start(), m.end())`. -/
def re_search_heading (words : List Str) (text : Str) : Option (Nat × Nat) :=
  searchLines words (text.length + 1) text 0

/-- The `for pat in _PRINT_INSTR_HEADINGS:` loop of `_parse_readme`:
the first pattern with a match wins, and the text splits at the match start
and at the first newline after the match end. -/
def heuristic_split (text : Str) : Option (Str × Str) :=
  PRINT_INSTR_HEADINGS.findSome? fun words =>
    (re_search_heading words text).map fun se =>
      match pyFind text (chars "\n") se.2 with
      | none => (pyStrip (text.take se.1), [])
      | some line_end => (pyStrip (text.take se.1), pyStrip (text.drop (line_end + 1)))

/-- Splitting a text into newline-separated lines
(spec-level notion used to state the heading claim). -/
def linesOf : Str → List Str
  | [] => [[]]
  | c :: rest =>
    if c = '\n' then [] :: linesOf rest
    else
      match linesOf rest with
      | l :: ls => (c :: l) :: ls
      | [] => [[c]]

/-- The heading split as the specification phrases it: for the first pattern
(in priority order) that matches some whole line of the text, split around
that pattern's first matching line; the text before that line (trimmed)
is the description, the text after it (trimmed) the instructions. -/
def claim_heading_split (text : Str) : Option (Str × Str) :=
  let ls := linesOf text
  PRINT_INSTR_HEADINGS.findSome? fun words =>
    (ls.findIdx? (fun l => (matchHeading words l).isSome)).map fun i =>
      (pyStrip (List.intercalate (chars "\n") (ls.take i)),
       pyStrip (List.intercalate (chars "\n") (ls.drop (i + 1))))

/-- `_parse_readme(text)`. -/
def parse_readme (text : Str) : Str × Str :=
  let desc := extract_between text MD_DESC_BEGIN MD_DESC_END
  let instr := extract_between text MD_INSTR_BEGIN MD_INSTR_END
  if desc.isSome || instr.isSome then (desc.getD [], instr.getD [])
  else
    match heuristic_split text with
    | some r => r
    | none => (pyStrip text, [])

/-- None of the four README markers occurs in `s` (as a substring). -/
abbrev markers_absent (s : Str) : Prop :=
  findIn MD_DESC_BEGIN s = none ∧ findIn MD_DESC_END s = none ∧
  findIn MD_INSTR_BEGIN s = none ∧ findIn MD_INSTR_END s = none

/-! ### Filesystem model and the read/write operations -/

/-- Filesystem state: file contents by path, plus the created directories. -/
structure FS where
  files : List (Str × Str) := []
  dirs : List Str := []
deriving DecidableEq

/-- `Path.is_file()`. -/
def FS.isFile (fs : FS) (p : Str) : Bool := (alGet fs.files p).isSome

/-- The bytes of a file (empty for a missing path). -/
def FS.content (fs : FS) (p : Str) : Str := (alGet fs.files p).getD []

/-- `Path.write_text` / the effect of `shutil.copy2` at the destination. -/
def FS.writeFile (fs : FS) (p c : Str) : FS :=
  { fs with files := alSet fs.files p c }

/-- `ensure_dir(path)` (`mkdir(parents=True, exist_ok=True)`). -/
def ensure_dir (fs : FS) (p : Str) : FS :=
  if fs.dirs.contains p then fs else { fs with dirs := p :: fs.dirs }

/-- `Path.__truediv__`. -/
def joinPath (p q : Str) : Str := p ++ chars "/" ++ q

/-- `Path.is_absolute()`. -/
def isAbsolute (p : Str) : Bool := p.head? = some '/'

/-- `(root / p).resolve() if not Path(p).is_absolute() else Path(p)`;
`resolve()` itself is modelled as the identity on normalized paths. -/
def resolveUnder (root q : Str) : Str :=
  if isAbsolute q then q else joinPath root q

/-- One iteration of the file-copy loop of `LocalDirPlugin.write`. -/
def copy_file_asset (h : Str → Str) (files_dir : Str)
    (acc : FS × List FileAsset) (f : FileAsset) : FS × List FileAsset :=
  let fs := acc.1
  let src : Option Str :=
    match f.path with
    | some p => if !p.isEmpty then some p else none
    | none => none
  let dst := joinPath files_dir f.filename
  match src with
  | some s =>
    if fs.isFile s then
      let fs' := if s ≠ dst then fs.writeFile dst (fs.content s) else fs
      let f' := { f with path := some (joinPath (chars "files") f.filename),
                         sha256 := some (h (fs'.content dst)) }
      (fs', acc.2 ++ [f'])
    else (fs, acc.2 ++ [f])
  | none => (fs, acc.2 ++ [f])

/-- One iteration of the image-copy loop of `LocalDirPlugin.write`. -/
def copy_image_asset (images_dir : Str)
    (acc : FS × List ImageAsset) (im : ImageAsset) : FS × List ImageAsset :=
  let fs := acc.1
  let src : Option Str :=
    match im.path with
    | some p => if !p.isEmpty then some p else none
    | none => none
  let dst := joinPath images_dir im.filename
  match src with
  | some s =>
    if fs.isFile s then
      let fs' := if s ≠ dst then fs.writeFile dst (fs.content s) else fs
      let im' := { im with path := some (joinPath (chars "images") im.filename) }
      (fs', acc.2 ++ [im'])
    else (fs, acc.2 ++ [im])
  | none => (fs, acc.2 ++ [im])

/-- `LocalDirPlugin.write(design, locator, mode=mode)`.  The body never
inspects `mode` and contains no `raise`, so the result is always `.ok`;
`dumps` abstracts `json.dumps`, `h` abstracts `sha256_file`.  The updated
`Design` is returned as well because the Python code mutates it in place. -/
def localdir_write (h : Str → Str) (dumps : Json → Str) (d : Design)
    (locator : Str) (mode : Str) (fs : FS) :
    Except WriteError (FS × Design × Str) :=
  let root := locator
  let fs := ensure_dir fs root
  let files_dir := joinPath root (chars "files")
  let images_dir := joinPath root (chars "images")
  let fs := ensure_dir fs files_dir
  let fs := ensure_dir fs images_dir
  let resF := d.files.foldl (copy_file_asset h files_dir) (fs, [])
  let resI := d.images.foldl (copy_image_asset images_dir) (resF.1, [])
  let d' := { d with files := resF.2, images := resI.2 }
  let fs := resI.1
  let fs := fs.writeFile (joinPath root (chars "metadata.json")) (dumps d'.to_json_val)
  let fs := fs.writeFile (joinPath root (chars "README.md"))
    (render_readme d'.title d'.description_md d'.instructions_md)
  .ok (fs, d', root)

/-- Errors raised by `LocalDirPlugin.read`: a missing `metadata.json`
(`ValidationError`) or a deserialization failure propagating out of
`Design.from_json`. -/
inductive ReadError where
  | validation (msg : Str)
  | deser
deriving DecidableEq

/-- The path checked by the per-file loop of `LocalDirPlugin.read`. -/
def file_asset_path (root : Str) (f : FileAsset) : Str :=
  match f.path with
  | some q =>
    if !q.isEmpty then resolveUnder root q
    else joinPath (joinPath root (chars "files")) f.filename
  | none => joinPath (joinPath root (chars "files")) f.filename

/-- One iteration of the per-file loop of `LocalDirPlugin.read`: fill in a
default path when absent, then recompute the hash only when the resolved
path exists on disk. -/
def process_file_asset (h : Str → Str) (fs : FS) (root : Str)
    (f : FileAsset) : FileAsset :=
  let p := file_asset_path root f
  let f1 :=
    match f.path with
    | some q => if !q.isEmpty then f else { f with path := some p }
    | none => { f with path := some p }
  if fs.isFile p then { f1 with sha256 := some (h (fs.content p)) } else f1

/-- One iteration of the per-image loop of `LocalDirPlugin.read` (no hash). -/
def process_image_asset (root : Str) (im : ImageAsset) : ImageAsset :=
  match im.path with
  | some q =>
    if !q.isEmpty then im
    else { im with path := some (joinPath (joinPath root (chars "images")) im.filename) }
  | none => { im with path := some (joinPath (joinPath root (chars "images")) im.filename) }

/-- `LocalDirPlugin.read(locator)`; `loads` abstracts `json.loads`. -/
def localdir_read (h : Str → Str) (loads : Str → Option Json) (locator : Str)
    (fs : FS) : Except ReadError Design :=
  let root := locator
  match alGet fs.files (joinPath root (chars "metadata.json")) with
  | none => .error (.validation (chars "metadata.json not found in " ++ root))
  | some mtext =>
    match loads mtext with
    | none => .error .deser
    | some j =>
      match Design.from_json_val j with
      | none => .error .deser
      | some d0 =>
        let d1 := { d0 with files := d0.files.map (process_file_asset h fs root),
                            images := d0.images.map (process_image_asset root) }
        match alGet fs.files (joinPath root (chars "README.md")) with
        | none => .ok d1
        | some rtext =>
          let pr := parse_readme rtext
          .ok { d1 with description_md := pr.1, instructions_md := pr.2 }

/-! # Theorems -/

/-! ### Round-trip lemmas for the sub-entities -/

theorem jOptStr_optStrJ (o : Option Str) : jOptStr? (optStrJ o) = some o := by
  cases o <;> rfl

theorem license_from_to_json (l : License) :
    License.from_json_val (License.to_json_val l) = some l := by
  obtain ⟨key, name, url⟩ := l
  cases name <;> cases url <;> rfl

theorem author_from_to_json (a : Author) :
    Author.from_json_val (Author.to_json_val a) = some a := by
  obtain ⟨name, url, uid⟩ := a
  cases url <;> cases uid <;> rfl

theorem fileAsset_from_to_json (f : FileAsset) :
    FileAsset.from_json_val (FileAsset.to_json_val f) = some f := by
  obtain ⟨fn, path, url, sha, kind, desc⟩ := f
  cases path <;> cases url <;> cases sha <;> cases desc <;> rfl

theorem imageAsset_from_to_json (im : ImageAsset) :
    ImageAsset.from_json_val (ImageAsset.to_json_val im) = some im := by
  obtain ⟨fn, path, url, cap, sha⟩ := im
  cases path <;> cases url <;> cases cap <;> cases sha <;> rfl

theorem derivative_from_to_json (dv : Derivative) :
    Derivative.from_json_val (Derivative.to_json_val dv) = some dv := by
  obtain ⟨su, sp, sid⟩ := dv
  cases sp <;> cases sid <;> rfl

theorem parseList_roundtrip {α : Type} (f : Json → Option α) (g : α → Json)
    (h : ∀ a, f (g a) = some a) :
    ∀ xs : List α, parseList f (xs.map g) = some xs := by
  intro xs
  induction xs with
  | nil => rfl
  | cons x rest ih => simp [parseList, h x, ih]

theorem jStr_str (s : Str) : jStr? (.str s) = some s := rfl

theorem truthy_null : truthy .null = false := rfl

theorem truthy_license (l : License) : truthy (License.to_json_val l) = true := rfl

theorem truthy_author (a : Author) : truthy (Author.to_json_val a) = true := rfl

/-- **C1.** For every `Design` `d`, `Design.from_json(d.to_json())` is
field-by-field equal to `d`: the serialization pair touches no field at all,
including `title`, `description_md`, `instructions_md`, `tags`, `categories`,
`license`, `author`, `files`, `images`, `derivatives`, `platform`,
`platform_id`, `public_url` and `extra`.  The stdlib `json.dumps`/`json.loads`
transport between the tree and its text is modelled as the identity on
`Json` trees. -/
theorem design_json_round_trip (d : Design) :
    Design.from_json_val (Design.to_json_val d) = some d := by
  obtain ⟨title, dmd, imd, tags, cats, lic, auth, files, imgs, derivs,
          plat, pid, purl, extra⟩ := d
  have hf := parseList_roundtrip FileAsset.from_json_val FileAsset.to_json_val
    fileAsset_from_to_json files
  have hi := parseList_roundtrip ImageAsset.from_json_val ImageAsset.to_json_val
    imageAsset_from_to_json imgs
  have hd := parseList_roundtrip Derivative.from_json_val Derivative.to_json_val
    derivative_from_to_json derivs
  have ht := parseList_roundtrip jStr? Json.str jStr_str tags
  have hc := parseList_roundtrip jStr? Json.str jStr_str cats
  cases lic <;> cases auth <;> cases plat <;> cases pid <;> cases purl <;>
    simp [Design.to_json_val, Design.from_json_val, argGuarded, argList,
          argStr, argStrD, argStrList, argExtra, argOptStr, alGet, chars,
          jStr?, jOptStr?, optStrJ, license_from_to_json,
          author_from_to_json, truthy_null, truthy_license, truthy_author,
          hf, hi, hd, ht, hc]


/-! ### C9: the local write ignores its mode argument -/

/-- **C9.** The local directory backend's `write` never inspects its `mode`
argument: for every design, locator, hash/serializer functions, filesystem
state and any pair of mode values (including strings other than `"create"`
and `"update"`), the two calls perform identical filesystem effects and
return the same root path, and no mode value is rejected with
`ValidationError` (the result is always `.ok`). -/
theorem localdir_write_ignores_mode (h : Str → Str) (dumps : Json → Str)
    (d : Design) (loc : Str) (m1 m2 : Str) (fs : FS) :
    localdir_write h dumps d loc m1 fs = localdir_write h dumps d loc m2 fs ∧
    ∃ out, localdir_write h dumps d loc m1 fs = .ok out :=
  ⟨rfl, ⟨_, rfl⟩⟩

/-! ### C10: stale hashes of missing files are carried through on read -/

/-- **C10.** On a local directory read, a `FileAsset` whose resolved path
does not exist on disk keeps the `sha256` stored in `metadata.json`
unchanged (neither recomputed nor cleared); an asset whose resolved path
exists gets a freshly computed hash of the bytes at that path; and the
returned design's file list is exactly the parsed list processed
element-wise this way. -/
theorem localdir_read_hash_frame (h : Str → Str) (loads : Str → Option Json)
    (loc : Str) (fs : FS) :
    (∀ f : FileAsset, fs.isFile (file_asset_path loc f) = false →
      (process_file_asset h fs loc f).sha256 = f.sha256) ∧
    (∀ f : FileAsset, fs.isFile (file_asset_path loc f) = true →
      (process_file_asset h fs loc f).sha256 =
        some (h (fs.content (file_asset_path loc f)))) ∧
    (∀ d : Design, localdir_read h loads loc fs = .ok d →
      ∃ d0 : Design, d.files = d0.files.map (process_file_asset h fs loc)) := by
  refine ⟨?_, ?_, ?_⟩
  · intro f hf
    unfold process_file_asset
    cases hp : f.path with
    | none => simp [hf, hp]
    | some q =>
      by_cases hq : q.isEmpty = true <;> simp [hf, hp, hq]
  · intro f hf
    unfold process_file_asset
    cases hp : f.path with
    | none => simp [hf, hp]
    | some q =>
      by_cases hq : q.isEmpty = true <;> simp [hf, hp, hq]
  · intro d hd
    unfold localdir_read at hd
    dsimp only at hd
    split at hd
    · exact absurd hd (by simp)
    split at hd
    · exact absurd hd (by simp)
    split at hd
    · exact absurd hd (by simp)
    rename_i d0 heq
    split at hd
    · cases hd
      exact ⟨d0, rfl⟩
    · cases hd
      exact ⟨d0, rfl⟩

/-- Witness for C10: on an empty filesystem the resolved path is missing and
a stored hash survives `process_file_asset`; a read over a one-file
filesystem returns the parsed file list mapped through it. -/
theorem localdir_read_hash_frame_witness :
    (process_file_asset (fun _ => chars "h") ⟨[], []⟩ (chars "/r")
      { filename := chars "a.stl", sha256 := some (chars "OLD") }).sha256
      = some (chars "OLD") :=
  (localdir_read_hash_frame (fun _ => chars "h") (fun _ => none) (chars "/r")
    ⟨[], []⟩).1 _ (by decide)

/-! ### C5: unmapped license on create falls back to `"cc"` -/

/-- **C5.** In create mode, when the design's normalized license does not
map to a Thingiverse identifier, the write does not fail: payload
construction succeeds, the payload's license field is the fixed platform
default `"cc"`, and the license step only logs a warning (`.defaulted`),
not an error. -/
theorem thingiverse_create_license_default (st : LicTables) (d : Design)
    (htitle : (pyStrip d.title).isEmpty = false)
    (hunmapped : map_for_platform st (normalize_license d.license)
      (chars "thingiverse") = none) :
    ∃ p : CreatePayload,
      thingiverse_create_payload st d = .ok (p, .defaulted) ∧
      p.license = chars "cc" := by
  have ht : d.title.isEmpty = false := by
    cases h0 : d.title with
    | nil => rw [h0] at htitle; exact absurd htitle (by decide)
    | cons c cs => rfl
  simp only [thingiverse_create_payload, ht, htitle, hunmapped, Bool.or_self,
    if_neg, Bool.false_eq_true, not_false_eq_true, reduceIte]
  exact ⟨_, rfl, rfl⟩

/-- Witness for C5: a design whose license key `"MIT"` is not mapped for
Thingiverse. -/
theorem thingiverse_create_license_default_witness :
    ∃ p : CreatePayload,
      thingiverse_create_payload thingiverse_tables
        { title := chars "Widget", license := some { key := chars "MIT" } }
        = .ok (p, .defaulted) ∧
      p.license = chars "cc" :=
  thingiverse_create_license_default thingiverse_tables
    { title := chars "Widget", license := some { key := chars "MIT" } }
    (by decide) (by decide)

/-! ### C4: the update branch does not apply the create branch's
license-mapping step -/

/-- **C4 counterexample.**  The claim says the update payload carries the
platform identifier whenever the *normalized* license maps for the
platform.  For a design whose license key is the alias `"cc-by"`,
normalization yields `CC-BY-4.0` which maps to `"cc"`, yet the update
payload built by the code (which maps the raw license without
normalization) carries no license at all. -/
theorem thingiverse_update_normalization_cex :
    map_for_platform thingiverse_tables
        (normalize_license (some { key := chars "cc-by" })) (chars "thingiverse")
      = some (chars "cc") ∧
    (thingiverse_update_payload thingiverse_tables
        { title := chars "T", license := some { key := chars "cc-by" } }).license
      = none := by
  decide

/-- **C4 (amended).**  The update branch maps the design's license field
directly through `map_for_platform` without prior normalization: whenever
that direct mapping yields a non-empty platform identifier, the
partial-update payload contains it. -/
theorem thingiverse_update_license_mapping (st : LicTables) (d : Design)
    (pid : Str) (hne : pid.isEmpty = false)
    (hmap : map_for_platform st d.license (chars "thingiverse") = some pid) :
    (thingiverse_update_payload st d).license = some pid := by
  unfold thingiverse_update_payload
  rw [hmap]
  simp [hne]

/-- Witness for C4 (amended): an already-canonical `CC-BY-4.0` license maps
to `"cc"` in the update payload. -/
theorem thingiverse_update_license_mapping_witness :
    (thingiverse_update_payload thingiverse_tables
      { title := chars "T", license := some licCCBY }).license
      = some (chars "cc") :=
  thingiverse_update_license_mapping thingiverse_tables
    { title := chars "T", license := some licCCBY } (chars "cc")
    (by decide) (by decide)

/-! ### C6: error policy of the per-asset upload loop -/

/-- **C6.** In the upload loop, a step-(1) failure (the initiate call
raises, or its response misses the upload target or form fields) only skips
that asset and the loop continues with the remaining assets, while a
non-success response in step (2) transfer or step (3) finalize aborts the
remainder of the write with an error. -/
theorem thingiverse_upload_error_policy (a : FileAsset) (env : AssetEnv)
    (rest : List (FileAsset × AssetEnv)) :
    (env.isFile = true → initFailed env = true →
      upload_loop ((a, env) :: rest) =
        (upload_loop rest).map ((a.filename, .skippedInit) :: ·)) ∧
    (env.isFile = true → initFailed env = false → env.transferOk = false →
      upload_loop ((a, env) :: rest) = .error (.transferFailed a.filename)) ∧
    (env.isFile = true → initFailed env = false → env.transferOk = true →
      finalizeRuns env = true → env.finalizeOk = false →
      upload_loop ((a, env) :: rest) = .error (.finalizeFailed a.filename)) := by
  refine ⟨?_, ?_, ?_⟩
  · intro hfile hfail
    have hstep : upload_asset a env = .ok .skippedInit := by
      cases hi : env.init with
      | error e => simp [upload_asset, hfile, hi]
      | ok r =>
        have hm : initMissing r = true := by
          unfold initFailed at hfail; rw [hi] at hfail; exact hfail
        simp [upload_asset, hfile, hi, hm]
    rw [upload_loop, hstep]
  · intro hfile hok htr
    have hstep : upload_asset a env = .error (.transferFailed a.filename) := by
      cases hi : env.init with
      | error e => unfold initFailed at hok; rw [hi] at hok; exact absurd hok (by simp)
      | ok r =>
        have hm : initMissing r = false := by
          unfold initFailed at hok; rw [hi] at hok; exact hok
        simp [upload_asset, hfile, hi, hm, htr]
    rw [upload_loop, hstep]
  · intro hfile hok htr hfin hfo
    have hstep : upload_asset a env = .error (.finalizeFailed a.filename) := by
      cases hi : env.init with
      | error e => unfold initFailed at hok; rw [hi] at hok; exact absurd hok (by simp)
      | ok r =>
        have hm : initMissing r = false := by
          unfold initFailed at hok; rw [hi] at hok; exact hok
        simp only [finalizeRuns, hi] at hfin
        cases hs : alGet (r.fields.getD []) (chars "success_action_redirect") with
        | none => rw [hs] at hfin; exact absurd hfin (by simp)
        | some sr =>
          rw [hs] at hfin
          simp only [Bool.not_eq_true'] at hfin
          simp [upload_asset, hfile, hi, hm, htr, hs, hfin, hfo]
    rw [upload_loop, hstep]

/-- Witness for C6: a concrete three-asset run where the first asset's
initiate call raises and is skipped, and a concrete run aborted by a failed
transfer. -/
theorem thingiverse_upload_error_policy_witness :
    upload_loop [({ filename := chars "a.stl" }, ⟨true, .error (), true, true⟩),
                 ({ filename := chars "b.stl" },
                  ⟨true, .ok ⟨some (chars "u"),
                    some [(chars "success_action_redirect", chars "r")]⟩, true, true⟩)]
      = .ok [(chars "a.stl", .skippedInit), (chars "b.stl", .uploaded)] ∧
    upload_loop [({ filename := chars "c.stl" },
                  ⟨true, .ok ⟨some (chars "u"), some [(chars "k", chars "v")]⟩,
                   false, true⟩)]
      = .error (.transferFailed (chars "c.stl")) := by
  constructor
  · rw [(thingiverse_upload_error_policy { filename := chars "a.stl" }
      ⟨true, .error (), true, true⟩ _).1 rfl rfl]
    rfl
  · exact (thingiverse_upload_error_policy { filename := chars "c.stl" }
      ⟨true, .ok ⟨some (chars "u"), some [(chars "k", chars "v")]⟩, false, true⟩
      []).2.1 rfl (by decide) rfl

/-! ### C7: explicit markers win and an absent pair yields the empty string -/

/-- **C7.** If either marker pair is present in a README (begin marker
followed by its end marker, so that `_extract_between` succeeds), parsing
returns exactly the extracted, newline-trimmed contents of each present
pair, and the part whose pair is absent is the empty string — the heading
heuristic and the whole-text fallback are not consulted. -/
theorem readme_markers_priority (text : Str)
    (hsome : (extract_between text MD_DESC_BEGIN MD_DESC_END).isSome = true ∨
             (extract_between text MD_INSTR_BEGIN MD_INSTR_END).isSome = true) :
    parse_readme text =
      ((extract_between text MD_DESC_BEGIN MD_DESC_END).getD [],
       (extract_between text MD_INSTR_BEGIN MD_INSTR_END).getD []) := by
  unfold parse_readme
  rcases hsome with hs | hs <;> simp [hs]

/-- Witness for C7: a README with only the description pair parses to its
content with empty instructions, even though a heading that the heuristic
would match appears later in the text. -/
theorem readme_markers_priority_witness :
    parse_readme (chars "<!-- modpub:begin:description -->\nHello\n<!-- modpub:end:description -->\nrest\n## Instructions\ntail")
      = (chars "Hello", []) := by
  rw [readme_markers_priority _ (Or.inl (by decide))]
  decide


/-! ### C3: license mapping round trip through the platform tables -/

theorem alGet_alSet_self {b : Type} (d : List (Str × b)) (k : Str) (v : b) :
    alGet (alSet d k v) k = some v := by
  induction d with
  | nil => simp [alSet, alGet]
  | cons e rest ih =>
    obtain ⟨a, w⟩ := e
    by_cases h : a = k
    · simp [alSet, alGet, h]
    · simp [alSet, alGet, h, ih]

theorem alGet_alSet_ne {b : Type} (d : List (Str × b)) (k k' : Str) (v : b)
    (h : k ≠ k') : alGet (alSet d k v) k' = alGet d k' := by
  induction d with
  | nil => simp [alSet, alGet, h]
  | cons e rest ih =>
    obtain ⟨a, w⟩ := e
    by_cases ha : a = k
    · subst ha
      simp [alSet, alGet, h, ih]
    · simp [alSet, alGet, ha, ih]

theorem nestGet_nestSet_self (d : List (Str × List (Str × Str))) (p k v : Str) :
    nestGet (nestSet d p k v) p k = some v := by
  unfold nestSet nestGet
  cases hh : alGet d p with
  | some inner => simp [hh, alGet_alSet_self]
  | none => simp [hh, alGet_alSet_self]

theorem nestGet_nestSet_ne (d : List (Str × List (Str × Str))) (p k v p' k' : Str)
    (h : p ≠ p' ∨ k ≠ k') :
    nestGet (nestSet d p k v) p' k' = nestGet d p' k' := by
  by_cases hp : p = p'
  · subst hp
    have hk : k ≠ k' := h.resolve_left (fun hc => hc rfl)
    unfold nestSet nestGet
    cases hh : alGet d p with
    | some inner =>
      simp [hh, alGet_alSet_self, alGet_alSet_ne _ _ _ _ hk]
    | none =>
      simp [hh, alGet_alSet_self, alGet_alSet_ne _ _ _ _ hk, alSet, alGet, hk]
  · unfold nestSet nestGet
    cases hh : alGet d p with
    | some inner => simp [hh, alGet_alSet_ne _ _ _ _ hp]
    | none => simp [hh, alGet_alSet_ne _ _ _ _ hp]

theorem applyRegs_preserves_out (regs : List Reg) (st : LicTables)
    (P K v : Str) (hbase : nestGet st.outbound P K = some v)
    (hno : ∀ r ∈ regs, ¬(r.platform = P ∧ r.canonical_key = K)) :
    nestGet (applyRegs regs st).outbound P K = some v := by
  induction regs generalizing st with
  | nil => exact hbase
  | cons r rest ih =>
    refine ih _ ?_ (fun r' hr' => hno r' (List.mem_cons_of_mem _ hr'))
    unfold register_platform_license_mapping
    rw [nestGet_nestSet_ne]
    · exact hbase
    · exact not_and_or.mp (hno r (List.mem_cons_self _ _))

theorem applyRegs_preserves_in (regs : List Reg) (st : LicTables)
    (P ik v : Str) (hbase : nestGet st.inbound P ik = some v)
    (hno : ∀ r ∈ regs, ¬(r.platform = P ∧ pyLower r.platform_id = ik)) :
    nestGet (applyRegs regs st).inbound P ik = some v := by
  induction regs generalizing st with
  | nil => exact hbase
  | cons r rest ih =>
    refine ih _ ?_ (fun r' hr' => hno r' (List.mem_cons_of_mem _ hr'))
    unfold register_platform_license_mapping
    rw [nestGet_nestSet_ne]
    · exact hbase
    · exact not_and_or.mp (hno r (List.mem_cons_self _ _))

/-- **C3 counterexample.**  A pair registered in both directions and never
overwritten, whose stored platform identifier carries surrounding
whitespace (`" CC "`): the outbound mapping returns the stored identifier,
but the inbound lookup (which strips and lowercases its argument while the
table was keyed by the unstripped lowercase form) fails, so the round trip
does not return the license key. -/
theorem license_platform_round_trip_cex :
    (map_for_platform (applyRegs [⟨chars "p", chars "K", chars " CC "⟩]
        LicTables.empty) (some { key := chars "K" }) (chars "p")
      = some (chars " CC ")) ∧
    (map_from_platform (applyRegs [⟨chars "p", chars "K", chars " CC "⟩]
        LicTables.empty)
      (map_for_platform (applyRegs [⟨chars "p", chars "K", chars " CC "⟩]
        LicTables.empty) (some { key := chars "K" }) (chars "p")) (chars "p")
      ≠ some (chars "K")) := by
  decide

/-- **C3 (amended).**  For every license `L` and platform `P` such that
`(L.key, pid)` was registered via `register_platform_license_mapping` and
neither direction is overwritten by a later registration for the same
platform, and the registered platform identifier is non-empty and carries
no surrounding whitespace, `map_from_platform (map_for_platform L P) P`
returns `L.key`; the stored identifier may still differ in case from the
inbound lookup key, which is lowercased on both sides. -/
theorem license_platform_round_trip (pre post : List Reg) (P K pid : Str)
    (L : License) (hkey : L.key = K)
    (hpe : pid ≠ [])
    (hps : pyStrip pid = pid)
    (hno_out : ∀ r ∈ post, ¬(r.platform = P ∧ r.canonical_key = K))
    (hno_in : ∀ r ∈ post, ¬(r.platform = P ∧ pyLower r.platform_id = pyLower pid)) :
    map_from_platform (applyRegs (pre ++ ⟨P, K, pid⟩ :: post) LicTables.empty)
      (map_for_platform (applyRegs (pre ++ ⟨P, K, pid⟩ :: post) LicTables.empty)
        (some L) P) P = some K := by
  have hsplit : applyRegs (pre ++ ⟨P, K, pid⟩ :: post) LicTables.empty
      = applyRegs post (register_platform_license_mapping
          (applyRegs pre LicTables.empty) P K pid) := by
    unfold applyRegs
    rw [List.foldl_append, List.foldl_cons]
  have hout : nestGet (applyRegs (pre ++ ⟨P, K, pid⟩ :: post)
      LicTables.empty).outbound P K = some pid := by
    rw [hsplit]
    exact applyRegs_preserves_out post _ P K pid
      (by unfold register_platform_license_mapping; exact nestGet_nestSet_self _ _ _ _)
      hno_out
  have hin : nestGet (applyRegs (pre ++ ⟨P, K, pid⟩ :: post)
      LicTables.empty).inbound P (pyLower pid) = some K := by
    rw [hsplit]
    exact applyRegs_preserves_in post _ P (pyLower pid) K
      (by unfold register_platform_license_mapping; exact nestGet_nestSet_self _ _ _ _)
      hno_in
  simp only [map_for_platform]
  rw [hkey, hout]
  simp only [map_from_platform]
  rw [if_neg hpe, hps, hin]

/-- Witness for C3 (amended): a single registration with stored identifier
`"CC"`; the round trip tolerates the case difference between the stored
identifier and the lowercased inbound key. -/
theorem license_platform_round_trip_witness :
    map_from_platform (applyRegs [⟨chars "p", chars "K", chars "CC"⟩]
        LicTables.empty)
      (map_for_platform (applyRegs [⟨chars "p", chars "K", chars "CC"⟩]
        LicTables.empty) (some { key := chars "K" }) (chars "p")) (chars "p")
      = some (chars "K") :=
  license_platform_round_trip [] [] (chars "p") (chars "K") (chars "CC")
    { key := chars "K" } rfl (by decide) (by decide)
    (by intro r hr; exact absurd hr (List.not_mem_nil r))
    (by intro r hr; exact absurd hr (List.not_mem_nil r))


/-! ### C8: the heading heuristic -/

/-- **C8 counterexample.**  The claim reads the patterns as matching single
level-2 heading lines.  The compiled regexes use `\s`, which also matches
newlines, so `^##\s*print\s*instructions\s*$` matches across the two lines
`"## print"` / `"instructions"`.  On a marker-free text containing that
pair before a genuine `"## instructions"` heading line, the claim predicts
a split at the heading line (pattern 3, the first whose pattern matches a
line), but the code splits at the cross-line match of pattern 1. -/
theorem parse_readme_heading_cex :
    (extract_between (chars "## print\ninstructions\nA\n## instructions\nB")
      MD_DESC_BEGIN MD_DESC_END = none) ∧
    (extract_between (chars "## print\ninstructions\nA\n## instructions\nB")
      MD_INSTR_BEGIN MD_INSTR_END = none) ∧
    claim_heading_split (chars "## print\ninstructions\nA\n## instructions\nB")
      = some (chars "## print\ninstructions\nA", chars "B") ∧
    parse_readme (chars "## print\ninstructions\nA\n## instructions\nB")
      ≠ (chars "## print\ninstructions\nA", chars "B") ∧
    parse_readme (chars "## print\ninstructions\nA\n## instructions\nB")
      = (chars "", chars "A\n## instructions\nB") := by
  decide

/-- **C8 (amended).**  With no marker pair present, the parse is decided by
the regex search: the patterns are tried in the fixed priority order
(`print instructions`, `print settings`, `instructions`, `printing`),
case-insensitively, with `\s` also matching newlines so a heading match may
span consecutive lines.  For the first pattern that matches anywhere, the
text before the leftmost match start, trimmed, is the description, and the
text after the first newline following the match end, trimmed, is the
instructions (empty when no newline follows).  With no markers and no
pattern match, the whole trimmed text is the description and the
instructions are empty. -/
theorem parse_readme_heuristic (text : Str)
    (hd : extract_between text MD_DESC_BEGIN MD_DESC_END = none)
    (hi : extract_between text MD_INSTR_BEGIN MD_INSTR_END = none) :
    parse_readme text =
      match PRINT_INSTR_HEADINGS.findSome?
          (fun words => (re_search_heading words text).map (fun se => se)) with
      | some se =>
        match pyFind text (chars "\n") se.2 with
        | none => (pyStrip (text.take se.1), [])
        | some le => (pyStrip (text.take se.1), pyStrip (text.drop (le + 1)))
      | none => (pyStrip text, []) := by
  unfold parse_readme
  rw [hd, hi]
  show (match heuristic_split text with
        | some r => r
        | none => (pyStrip text, [])) = _
  unfold heuristic_split PRINT_INSTR_HEADINGS
  simp only [List.findSome?]
  cases re_search_heading [chars "print", chars "instructions"] text with
  | some se => cases pyFind text (chars "\n") se.2 <;> rfl
  | none =>
    cases re_search_heading [chars "print", chars "settings"] text with
    | some se => cases pyFind text (chars "\n") se.2 <;> rfl
    | none =>
      cases re_search_heading [chars "instructions"] text with
      | some se => cases pyFind text (chars "\n") se.2 <;> rfl
      | none =>
        cases re_search_heading [chars "printing"] text with
        | some se => cases pyFind text (chars "\n") se.2 <;> rfl
        | none => rfl

/-- Witness for C8 (amended): the specification's own heuristic example. -/
theorem parse_readme_heuristic_witness :
    parse_readme
      (chars "This is general.\n\n## Print Instructions\nUse 0.28mm layer height.")
      = (chars "This is general.", chars "Use 0.28mm layer height.") := by
  rw [parse_readme_heuristic _ (by decide) (by decide)]
  decide


/-! ### C2: README render/parse round trip

Supporting string lemmas: locating the first occurrence of a marker in the
rendered document.  `findIn_append_shift` is the workhorse: searching a
newline-free needle in `a ++ b` reduces to searching `b` when the needle
does not occur in `a` and the junction is guarded by a newline (the needle
cannot straddle it). -/

theorem findIn_cons (needle : Str) (c : Char) (s : Str) :
    findIn needle (c :: s) =
      if needle.isPrefixOf (c :: s) then some 0
      else (findIn needle s).map (· + 1) := rfl

theorem prefix_of_append_of_le (needle x y : Str) (h : needle <+: x ++ y)
    (hlen : needle.length ≤ x.length) : needle <+: x := by
  rw [ List.prefix_iff_eq_take] at h ⊢
  rw [ List.take_append_of_le_length hlen] at h
  exact h

theorem prefix_getElem_eq (needle s : Str) (h : needle <+: s) {i : Nat}
    (hi : i < needle.length) : needle[i]? = s[i]? := by
  conv_lhs => rw [ List.prefix_iff_eq_take.mp h]
  rw [ List.getElem?_take, if_pos hi]

theorem not_prefix_append_long (needle a b : Str)
    (hnl : ('\n' : Char) ∉ needle)
    (hlen : a.length < needle.length)
    (hbd : a.getLast? = some '\n' ∨ b.head? = some '\n')
    (hane : a ≠ []) :
    ¬ needle <+: a ++ b := by
  intro hpre
  rcases hbd with hlast | hhead
  · have hpos : 0 < a.length := List.length_pos.mpr hane
    have hi : a.length - 1 < needle.length :=
      Nat.lt_of_le_of_lt (Nat.sub_le _ _) hlen
    have h1 : needle[a.length - 1]? = (a ++ b)[a.length - 1]? :=
      prefix_getElem_eq _ _ hpre hi
    have h2 : (a ++ b)[a.length - 1]? = a[a.length - 1]? := by
      rw [ List.getElem?_append, if_pos (Nat.sub_lt hpos Nat.one_pos)]
    have h3 : a[a.length - 1]? = some '\n' := by
      rw [← List.getLast?_eq_getElem?]
      exact hlast
    exact hnl (List.getElem?_mem (by rw [h1, h2, h3]))
  · have h1 : needle[a.length]? = (a ++ b)[a.length]? :=
      prefix_getElem_eq _ _ hpre hlen
    have h2 : (a ++ b)[a.length]? = b[0]? := by
      rw [ List.getElem?_append_right (le_refl _), Nat.sub_self]
    have h3 : b[0]? = some '\n' := by
      rw [← List.head?_eq_getElem?]
      exact hhead
    exact hnl (List.getElem?_mem (by rw [h1, h2, h3]))

theorem findIn_append_shift (needle a b : Str) (hne : needle ≠ [])
    (hnl : ('\n' : Char) ∉ needle)
    (hno : findIn needle a = none)
    (hbd : a = [] ∨ a.getLast? = some '\n' ∨ b.head? = some '\n') :
    findIn needle (a ++ b) = (findIn needle b).map (· + a.length) := by
  clear hne
  induction a with
  | nil =>
    show findIn needle b = (findIn needle b).map (· + 0)
    cases h : findIn needle b with
    | none => rfl
    | some k => rfl
  | cons c a' ih =>
    have hnp : needle.isPrefixOf (c :: a') = false := by
      cases hp : needle.isPrefixOf (c :: a') with
      | false => rfl
      | true =>
        unfold findIn at hno
        rw [hp] at hno
        exact absurd hno (by simp)
    have hno' : findIn needle a' = none := by
      unfold findIn at hno
      rw [hnp] at hno
      simp only [Bool.false_eq_true, if_false, Option.map_eq_none'] at hno
      exact hno
    have hstep : needle.isPrefixOf (c :: (a' ++ b)) = false := by
      cases hp : needle.isPrefixOf (c :: (a' ++ b)) with
      | false => rfl
      | true =>
        have hpre : needle <+: (c :: a') ++ b := by
          simpa using List.isPrefixOf_iff_prefix.mp hp
        by_cases hlen : needle.length ≤ (c :: a').length
        · have hpx : needle <+: c :: a' := prefix_of_append_of_le _ _ _ hpre hlen
          rw [← List.isPrefixOf_iff_prefix] at hpx
          rw [hnp] at hpx
          exact absurd hpx (by simp)
        · push_neg at hlen
          have hbd' : (c :: a').getLast? = some '\n' ∨ b.head? = some '\n' := by
            rcases hbd with h0 | h | h
            · exact absurd h0 (List.cons_ne_nil c a')
            · exact Or.inl h
            · exact Or.inr h
          exact absurd hpre
            (not_prefix_append_long needle (c :: a') b hnl hlen hbd'
              (List.cons_ne_nil c a'))
    have hbd2 : a' = [] ∨ a'.getLast? = some '\n' ∨ b.head? = some '\n' := by
      rcases hbd with h0 | h | h
      · exact absurd h0 (List.cons_ne_nil c a')
      · cases a' with
        | nil => exact Or.inl rfl
        | cons e a2 =>
          rw [ List.getLast?_cons_cons] at h
          exact Or.inr (Or.inl h)
      · exact Or.inr (Or.inr h)
    have hrec := ih hno' hbd2
    show findIn needle (c :: (a' ++ b)) = _
    rw [findIn_cons, hstep]
    simp only [Bool.false_eq_true, if_false]
    rw [hrec]
    cases h : findIn needle b with
    | none => rfl
    | some k =>
      show some (k + a'.length + 1) = some (k + (a'.length + 1))
      rw [Nat.add_assoc]

theorem findIn_prefix_self (needle b : Str) (hne : needle ≠ []) :
    findIn needle (needle ++ b) = some 0 := by
  cases hn : needle with
  | nil => exact absurd hn hne
  | cons c rest =>
    have hp : (c :: rest).isPrefixOf (c :: (rest ++ b)) = true := by
      rw [ List.isPrefixOf_iff_prefix]
      exact List.prefix_append (c :: rest) b
    show findIn (c :: rest) (c :: (rest ++ b)) = some 0
    unfold findIn
    rw [hp]
    simp

theorem findIn_append_exact (needle a b : Str) (hne : needle ≠ [])
    (hnl : ('\n' : Char) ∉ needle)
    (hno : findIn needle a = none)
    (hbd : a = [] ∨ a.getLast? = some '\n') :
    findIn needle (a ++ (needle ++ b)) = some a.length := by
  rw [findIn_append_shift needle a (needle ++ b) hne hnl hno (hbd.imp id Or.inl)]
  rw [findIn_prefix_self needle b hne]
  show some (0 + a.length) = some a.length
  rw [Nat.zero_add]

theorem findIn_eq_none_iff (needle s : Str) (hne : needle ≠ []) :
    findIn needle s = none ↔ ∀ j : Nat, ¬ needle <+: s.drop j := by
  induction s with
  | nil =>
    constructor
    · intro _ j hj
      rw [ List.drop_nil] at hj
      exact hne (List.prefix_nil.mp hj)
    · intro _
      simp [findIn, hne]
  | cons c s' ih =>
    constructor
    · intro h j hj
      unfold findIn at h
      cases hp : needle.isPrefixOf (c :: s') with
      | true => rw [hp] at h; exact absurd h (by simp)
      | false =>
        rw [hp] at h
        simp only [Bool.false_eq_true, if_false, Option.map_eq_none'] at h
        cases j with
        | zero =>
          rw [ List.drop_zero] at hj
          have hb := List.isPrefixOf_iff_prefix.mpr hj
          rw [hp] at hb
          exact absurd hb (by simp)
        | succ j' =>
          exact (ih.mp h) j' (by rw [ List.drop_succ_cons] at hj; exact hj)
    · intro h
      unfold findIn
      have hp : needle.isPrefixOf (c :: s') = false := by
        cases hp : needle.isPrefixOf (c :: s') with
        | false => rfl
        | true =>
          have hb := List.isPrefixOf_iff_prefix.mp hp
          exact absurd hb (by have h0 := h 0; rw [ List.drop_zero] at h0; exact h0)
      rw [hp]
      simp only [Bool.false_eq_true, if_false, Option.map_eq_none']
      exact ih.mpr (fun j hj => h (j + 1) (by rw [ List.drop_succ_cons]; exact hj))

theorem findIn_none_mono (needle s s' : Str) (hne : needle ≠ [])
    (hsub : s' <+: s) (h : findIn needle s = none) : findIn needle s' = none := by
  rw [findIn_eq_none_iff _ _ hne] at h ⊢
  intro j hj
  apply h j
  have h1 : s'.drop j <+: s.drop j := by
    rw [ List.prefix_iff_eq_take.mp hsub, List.drop_take]
    exact List.take_prefix _ _
  exact hj.trans h1

theorem findIn_none_cons (needle s : Str) (c h0 : Char)
    (hh : needle.head? = some h0) (hne : h0 ≠ c)
    (h : findIn needle s = none) : findIn needle (c :: s) = none := by
  cases needle with
  | nil => exact absurd hh (by simp)
  | cons n0 nt =>
    have hn0 : n0 = h0 := by simpa using hh
    unfold findIn
    have hp : (n0 :: nt).isPrefixOf (c :: s) = false := by
      cases hp : (n0 :: nt).isPrefixOf (c :: s) with
      | false => rfl
      | true =>
        have hc := (List.cons_prefix_cons.mp (List.isPrefixOf_iff_prefix.mp hp)).1
        rw [hn0] at hc
        exact absurd hc hne
    rw [hp]
    simp [h]

theorem findIn_none_all_nl (needle s : Str) (hne : needle ≠ [])
    (hnl : ('\n' : Char) ∉ needle) (hs : ∀ c ∈ s, c = '\n') :
    findIn needle s = none := by
  induction s with
  | nil => simp [findIn, hne]
  | cons c s' ih =>
    unfold findIn
    have hp : needle.isPrefixOf (c :: s') = false := by
      cases hp : needle.isPrefixOf (c :: s') with
      | false => rfl
      | true =>
        cases needle with
        | nil => exact absurd rfl hne
        | cons n0 nt =>
          have hc := (List.cons_prefix_cons.mp (List.isPrefixOf_iff_prefix.mp hp)).1
          rw [hc, hs c (List.mem_cons_self c s')] at hnl
          exact absurd (List.mem_cons_self _ _) hnl
    rw [hp]
    simp [ih (fun x hx => hs x (List.mem_cons_of_mem _ hx))]

theorem findIn_nil (needle : Str) (hne : needle ≠ []) : findIn needle [] = none := by
  unfold findIn
  rw [if_neg hne]

theorem findIn_none_append (needle a b : Str) (hne : needle ≠ [])
    (hnl : ('\n' : Char) ∉ needle)
    (ha : findIn needle a = none) (hb : findIn needle b = none)
    (hbd : a = [] ∨ a.getLast? = some '\n' ∨ b.head? = some '\n') :
    findIn needle (a ++ b) = none := by
  rw [findIn_append_shift needle a b hne hnl ha hbd, hb]
  rfl

theorem findIn_none_header (needle t : Str) (hne : needle ≠ [])
    (hnl : ('\n' : Char) ∉ needle) (hh : needle.head? = some '<')
    (ht : findIn needle t = none) :
    findIn needle (if t.isEmpty then [] else '#' :: ' ' :: (t ++ ['\n', '\n']))
      = none := by
  by_cases h0 : t.isEmpty
  · rw [if_pos h0]
    exact findIn_nil needle hne
  · rw [if_neg h0]
    refine findIn_none_cons needle _ '#' '<' hh (by decide) ?_
    refine findIn_none_cons needle _ ' ' '<' hh (by decide) ?_
    exact findIn_none_append needle t ['\n', '\n'] hne hnl ht
      (findIn_none_all_nl needle _ hne hnl (by decide)) (Or.inr (Or.inr rfl))

theorem findIn_none_mid (needle x : Str) (hne : needle ≠ [])
    (hnl : ('\n' : Char) ∉ needle) (hx : findIn needle x = none) :
    findIn needle ('\n' :: (x ++ ['\n', '\n'])) = none := by
  have h1 : findIn needle (x ++ ['\n', '\n']) = none :=
    findIn_none_append needle x ['\n', '\n'] hne hnl hx
      (findIn_none_all_nl needle _ hne hnl (by decide)) (Or.inr (Or.inr rfl))
  cases needle with
  | nil => exact absurd rfl hne
  | cons n0 nt =>
    refine findIn_none_cons _ _ '\n' n0 rfl ?_ h1
    intro he
    apply hnl
    rw [← he]
    exact List.mem_cons_self n0 nt

theorem getLast?_mid (x : Str) :
    (('\n' :: (x ++ ['\n', '\n'])) : Str).getLast? = some '\n' := by
  show ((['\n'] ++ (x ++ ['\n', '\n'])) : Str).getLast? = some '\n'
  rw [ List.getLast?_append, List.getLast?_append]
  rfl

theorem header_bd (t : Str) :
    (if t.isEmpty then ([] : Str) else '#' :: ' ' :: (t ++ ['\n', '\n'])) = [] ∨
    (if t.isEmpty then ([] : Str) else '#' :: ' ' :: (t ++ ['\n', '\n'])).getLast?
      = some '\n' := by
  by_cases h0 : t.isEmpty
  · left
    rw [if_pos h0]
  · right
    rw [if_neg h0]
    show ((['#', ' '] ++ (t ++ ['\n', '\n'])) : Str).getLast? = some '\n'
    rw [ List.getLast?_append, List.getLast?_append]
    rfl

theorem pyRstrip_prefix_self (s : Str) : pyRstrip s <+: s := by
  unfold pyRstrip rstripWith
  refine List.reverse_suffix.mp ?_
  rw [ List.reverse_reverse]
  exact List.dropWhile_suffix isWs

theorem pyRstrip_last_not_ws (s : Str) (c : Char)
    (h : (pyRstrip s).getLast? = some c) : isWs c = false := by
  unfold pyRstrip rstripWith at h
  rw [ List.getLast?_reverse] at h
  have hk := List.head?_dropWhile_not isWs s.reverse
  rw [h] at hk
  exact hk

theorem stripNl_block (x : Str) (hx : ∀ c, x.getLast? = some c → isWs c = false) :
    stripNl ('\n' :: (x ++ ['\n', '\n'])) = lstripNl x := by
  have hrev : ('\n' :: (x ++ ['\n', '\n'])).reverse
      = '\n' :: '\n' :: (x.reverse ++ ['\n']) := by
    simp
  unfold stripNl rstripWith
  rw [hrev]
  rw [ List.dropWhile_cons, if_pos (by decide), List.dropWhile_cons,
    if_pos (by decide)]
  cases hx0 : x.reverse.head? with
  | none =>
    have hxnil : x = [] := by
      cases xx : x.reverse with
      | nil =>
        have hc := congrArg List.reverse xx
        rw [ List.reverse_reverse] at hc
        simpa using hc
      | cons e tl => rw [xx] at hx0; exact absurd hx0 (by simp)
    subst hxnil
    rfl
  | some c =>
    have hc : isWs c = false := by
      refine hx c ?_
      rw [← List.head?_reverse]
      exact hx0
    have hcn : (c == '\n') = false := by
      cases hcc : c == '\n' with
      | false => rfl
      | true =>
        have hceq : c = '\n' := by simpa using hcc
        rw [hceq] at hc
        exact absurd hc (by decide)
    obtain ⟨tl, hxt⟩ : ∃ tl, x.reverse = c :: tl := by
      cases xx : x.reverse with
      | nil => rw [xx] at hx0; exact absurd hx0 (by simp)
      | cons e tl =>
        rw [xx] at hx0
        simp only [List.head?_cons, Option.some.injEq] at hx0
        exact ⟨tl, by rw [hx0]⟩
    rw [hxt, List.cons_append, List.dropWhile_cons, hcn]
    simp only [Bool.false_eq_true, if_false]
    have hstep : ((c :: (tl ++ ['\n'])).reverse : Str)
        = '\n' :: (c :: tl).reverse.reverse.reverse := by
      simp
    rw [hstep]
    rw [ List.reverse_reverse]
    show lstripWith (· == '\n') ('\n' :: (c :: tl).reverse) = lstripNl x
    unfold lstripWith
    rw [ List.dropWhile_cons, if_pos (by decide)]
    have hxx : ((c :: tl).reverse : Str) = x := by
      have hb := congrArg List.reverse hxt
      rw [ List.reverse_reverse] at hb
      exact hb.symm
    rw [hxx]
    rfl

theorem render_readme_decomp (t d i : Str) :
    render_readme t d i =
      (if t.isEmpty then [] else '#' :: ' ' :: (t ++ ['\n', '\n'])) ++
      (MD_DESC_BEGIN ++ (('\n' :: (pyRstrip d ++ ['\n', '\n'])) ++
      (MD_DESC_END ++ (('\n' :: '\n' :: (chars "## Print Instructions" ++ ['\n', '\n'])) ++
      (MD_INSTR_BEGIN ++ (('\n' :: (pyRstrip i ++ ['\n', '\n'])) ++
      (MD_INSTR_END ++ ['\n']))))))) := by
  have e1 : chars "# " = ['#', ' '] := rfl
  have e2 : chars "\n" = ['\n'] := rfl
  have e3 : chars "## Print Instructions\n" = chars "## Print Instructions" ++ ['\n'] := rfl
  unfold render_readme
  cases ht : t.isEmpty with
  | true => simp [List.intercalate, e1, e2, e3]
  | false => simp [List.intercalate, e1, e2, e3]

theorem extract_render_desc (t d i : Str)
    (hmt : markers_absent t) (hmd : markers_absent d) :
    extract_between (render_readme t d i) MD_DESC_BEGIN MD_DESC_END
      = some (lstripNl (pyRstrip d)) := by
  rw [render_readme_decomp]
  set A := (if t.isEmpty then ([] : Str) else '#' :: ' ' :: (t ++ ['\n', '\n'])) with hA
  set M1 : Str := '\n' :: (pyRstrip d ++ ['\n', '\n']) with hM1
  set M2 : Str := '\n' :: '\n' :: (chars "## Print Instructions" ++ ['\n', '\n']) with hM2
  set M3 : Str := '\n' :: (pyRstrip i ++ ['\n', '\n']) with hM3
  set R2 : Str := M2 ++ (MD_INSTR_BEGIN ++ (M3 ++ (MD_INSTR_END ++ ['\n']))) with hR2
  set R := A ++ (MD_DESC_BEGIN ++ (M1 ++ (MD_DESC_END ++ R2))) with hR
  have hAno : findIn MD_DESC_BEGIN A = none := by
    rw [hA]
    exact findIn_none_header _ _ (by decide) (by decide) (by decide) hmt.1
  have hAbd : A = [] ∨ A.getLast? = some '\n' := by
    rw [hA]
    exact header_bd t
  have hfindDB : findIn MD_DESC_BEGIN R = some A.length := by
    rw [hR]
    exact findIn_append_exact _ _ _ (by decide) (by decide) hAno hAbd
  have hM1no : findIn MD_DESC_END M1 = none := by
    rw [hM1]
    refine findIn_none_mid _ _ (by decide) (by decide) ?_
    exact findIn_none_mono _ d _ (by decide) (pyRstrip_prefix_self d) hmd.2.1
  have hdrop : R.drop (A.length + MD_DESC_BEGIN.length)
      = M1 ++ (MD_DESC_END ++ R2) := by
    rw [show R = (A ++ MD_DESC_BEGIN) ++ (M1 ++ (MD_DESC_END ++ R2)) from by
        rw [hR]; simp [List.append_assoc],
      show A.length + MD_DESC_BEGIN.length = (A ++ MD_DESC_BEGIN).length from
        (List.length_append A MD_DESC_BEGIN).symm]
    exact List.drop_left _ _
  have hfindDE : findIn MD_DESC_END (M1 ++ (MD_DESC_END ++ R2)) = some M1.length := by
    refine findIn_append_exact _ _ _ (by decide) (by decide) hM1no (Or.inr ?_)
    rw [hM1]
    exact getLast?_mid _
  have e1 : pyFind R MD_DESC_BEGIN 0 = some A.length := by
    unfold pyFind
    rw [ List.drop_zero, hfindDB]
    rfl
  have e2 : pyFind R MD_DESC_END (A.length + MD_DESC_BEGIN.length)
      = some (M1.length + (A.length + MD_DESC_BEGIN.length)) := by
    unfold pyFind
    rw [hdrop, hfindDE]
    rfl
  unfold extract_between
  rw [e1]
  dsimp only
  rw [e2]
  dsimp only
  rw [show M1.length + (A.length + MD_DESC_BEGIN.length)
      - (A.length + MD_DESC_BEGIN.length) = M1.length from by omega]
  rw [hdrop]
  rw [show (M1 ++ (MD_DESC_END ++ R2)).take M1.length = M1 from List.take_left _ _]
  rw [hM1]
  exact congrArg some (stripNl_block (pyRstrip d) (pyRstrip_last_not_ws d))

theorem extract_render_instr (t d i : Str)
    (hmt : markers_absent t) (hmd : markers_absent d) (hmi : markers_absent i) :
    extract_between (render_readme t d i) MD_INSTR_BEGIN MD_INSTR_END
      = some (lstripNl (pyRstrip i)) := by
  rw [render_readme_decomp]
  set A := (if t.isEmpty then ([] : Str) else '#' :: ' ' :: (t ++ ['\n', '\n'])) with hA
  set M1 : Str := '\n' :: (pyRstrip d ++ ['\n', '\n']) with hM1
  set M2 : Str := '\n' :: '\n' :: (chars "## Print Instructions" ++ ['\n', '\n']) with hM2
  set M3 : Str := '\n' :: (pyRstrip i ++ ['\n', '\n']) with hM3
  set TL : Str := M3 ++ (MD_INSTR_END ++ ['\n']) with hTL
  set R := A ++ (MD_DESC_BEGIN ++ (M1 ++ (MD_DESC_END
    ++ (M2 ++ (MD_INSTR_BEGIN ++ TL))))) with hR
  have hAno : findIn MD_INSTR_BEGIN A = none := by
    rw [hA]
    exact findIn_none_header _ _ (by decide) (by decide) (by decide) hmt.2.2.1
  have hAbd : A = [] ∨ A.getLast? = some '\n' ∨
      (MD_DESC_BEGIN ++ (M1 ++ (MD_DESC_END
        ++ (M2 ++ (MD_INSTR_BEGIN ++ TL))))).head? = some '\n' := by
    rcases header_bd t with h | h
    · exact Or.inl (by rw [hA]; exact h)
    · exact Or.inr (Or.inl (by rw [hA]; exact h))
  have hM1no : findIn MD_INSTR_BEGIN M1 = none := by
    rw [hM1]
    refine findIn_none_mid _ _ (by decide) (by decide) ?_
    exact findIn_none_mono _ d _ (by decide) (pyRstrip_prefix_self d) hmd.2.2.1
  have hM3no : findIn MD_INSTR_END M3 = none := by
    rw [hM3]
    refine findIn_none_mid _ _ (by decide) (by decide) ?_
    exact findIn_none_mono _ i _ (by decide) (pyRstrip_prefix_self i) hmi.2.2.2
  have hfindIB : findIn MD_INSTR_BEGIN R
      = some (A.length + MD_DESC_BEGIN.length + M1.length + MD_DESC_END.length
          + M2.length) := by
    rw [hR]
    rw [findIn_append_shift MD_INSTR_BEGIN A _ (by decide) (by decide) hAno hAbd]
    rw [findIn_append_shift MD_INSTR_BEGIN MD_DESC_BEGIN _ (by decide) (by decide)
      (by decide) (Or.inr (Or.inr (by rw [hM1]; rfl)))]
    rw [findIn_append_shift MD_INSTR_BEGIN M1 _ (by decide) (by decide) hM1no
      (Or.inr (Or.inl (by rw [hM1]; exact getLast?_mid _)))]
    rw [findIn_append_shift MD_INSTR_BEGIN MD_DESC_END _ (by decide) (by decide)
      (by decide) (Or.inr (Or.inr (by rw [hM2]; rfl)))]
    rw [findIn_append_shift MD_INSTR_BEGIN M2 _ (by decide) (by decide)
      (by rw [hM2]; decide)
      (Or.inr (Or.inl (by rw [hM2]; decide)))]
    rw [findIn_prefix_self _ _ (by decide)]
    simp only [Option.map_some']
    congr 1
    omega
  have hdrop : R.drop (A.length + MD_DESC_BEGIN.length + M1.length
      + MD_DESC_END.length + M2.length + MD_INSTR_BEGIN.length) = TL := by
    rw [show R = (A ++ (MD_DESC_BEGIN ++ (M1 ++ (MD_DESC_END
        ++ (M2 ++ MD_INSTR_BEGIN))))) ++ TL from by
      rw [hR]; simp [List.append_assoc]]
    rw [show A.length + MD_DESC_BEGIN.length + M1.length + MD_DESC_END.length
        + M2.length + MD_INSTR_BEGIN.length
        = (A ++ (MD_DESC_BEGIN ++ (M1 ++ (MD_DESC_END
          ++ (M2 ++ MD_INSTR_BEGIN))))).length from by
      simp [List.length_append]
      omega]
    exact List.drop_left _ _
  have hfindIE : findIn MD_INSTR_END TL = some M3.length := by
    rw [hTL]
    refine findIn_append_exact _ _ _ (by decide) (by decide) hM3no (Or.inr ?_)
    rw [hM3]
    exact getLast?_mid _
  have e1 : pyFind R MD_INSTR_BEGIN 0
      = some (A.length + MD_DESC_BEGIN.length + M1.length + MD_DESC_END.length
          + M2.length) := by
    unfold pyFind
    rw [ List.drop_zero, hfindIB]
    rfl
  have e2 : pyFind R MD_INSTR_END (A.length + MD_DESC_BEGIN.length + M1.length
      + MD_DESC_END.length + M2.length + MD_INSTR_BEGIN.length)
      = some (M3.length + (A.length + MD_DESC_BEGIN.length + M1.length
          + MD_DESC_END.length + M2.length + MD_INSTR_BEGIN.length)) := by
    unfold pyFind
    rw [hdrop, hfindIE]
    rfl
  unfold extract_between
  rw [e1]
  dsimp only
  rw [e2]
  dsimp only
  rw [show M3.length + (A.length + MD_DESC_BEGIN.length + M1.length
      + MD_DESC_END.length + M2.length + MD_INSTR_BEGIN.length)
      - (A.length + MD_DESC_BEGIN.length + M1.length + MD_DESC_END.length
      + M2.length + MD_INSTR_BEGIN.length) = M3.length from by omega]
  rw [hdrop]
  rw [show TL.take M3.length = M3 from by rw [hTL]; exact List.take_left _ _]
  rw [hM3]
  exact congrArg some (stripNl_block (pyRstrip i) (pyRstrip_last_not_ws i))


theorem findIn_some_pos (needle s : Str) (j : Nat)
    (h : findIn needle s = some j) : needle <+: s.drop j := by
  induction s generalizing j with
  | nil =>
    unfold findIn at h
    by_cases hn : needle = []
    · rw [if_pos hn] at h
      cases h
      rw [ List.drop_zero, hn]
    · rw [if_neg hn] at h
      exact absurd h (by simp)
  | cons c s' ih =>
    unfold findIn at h
    cases hp : needle.isPrefixOf (c :: s') with
    | true =>
      rw [hp, if_pos rfl] at h
      cases h
      rw [ List.drop_zero]
      exact List.isPrefixOf_iff_prefix.mp hp
    | false =>
      rw [hp] at h
      simp only [Bool.false_eq_true, if_false] at h
      cases hf : findIn needle s' with
      | none => rw [hf] at h; exact absurd h (by simp)
      | some k =>
        rw [hf] at h
        simp only [Option.map_some', Option.some.injEq] at h
        subst h
        rw [ List.drop_succ_cons]
        exact ih k hf

theorem findIn_isSome_of_drop (needle s : Str) (hne : needle ≠ []) (j k : Nat)
    (h : findIn needle (s.drop j) = some k) : (findIn needle s).isSome = true := by
  cases hf : findIn needle s with
  | some v => rfl
  | none =>
    have hocc : needle <+: (s.drop j).drop k := findIn_some_pos _ _ _ h
    rw [ List.drop_drop] at hocc
    exact absurd hocc ((findIn_eq_none_iff needle s hne).mp hf (j + k))

theorem pyFind_some_isSome (hay needle : Str) (start v : Nat) (hne : needle ≠ [])
    (h : pyFind hay needle start = some v) : (findIn needle hay).isSome = true := by
  unfold pyFind at h
  cases hf : findIn needle (hay.drop start) with
  | none => rw [hf] at h; exact absurd h (by simp)
  | some k => exact findIn_isSome_of_drop needle hay hne start k hf

/-- **C2 counterexample.**  The claim predicts that a rendered README parses
back to the Python-`strip`ped description and instructions.  Rendering only
right-strips, and parsing strips newlines around the marker block, so a
description `" x "` (no markers in it) comes back as `" x"`, not the
stripped `"x"`. -/
theorem readme_round_trip_cex :
    markers_absent (chars " x ") ∧ markers_absent (chars "I") ∧
    parse_readme (render_readme (chars "T") (chars " x ") (chars "I"))
      ≠ (pyStrip (chars " x "), pyStrip (chars "I")) := by
  decide

/-- **C2 (amended).**  For any title, description and instructions in which
none of the four marker strings occurs, the rendered README contains both
explicit marker pairs, and parsing it back yields exactly the description
and instructions with trailing whitespace removed and leading newlines
stripped (`lstripNl ∘ pyRstrip`); leading non-newline whitespace survives
the round trip. -/
theorem readme_round_trip (t d i : Str)
    (hmt : markers_absent t) (hmd : markers_absent d) (hmi : markers_absent i) :
    (findIn MD_DESC_BEGIN (render_readme t d i)).isSome = true ∧
    (findIn MD_DESC_END (render_readme t d i)).isSome = true ∧
    (findIn MD_INSTR_BEGIN (render_readme t d i)).isSome = true ∧
    (findIn MD_INSTR_END (render_readme t d i)).isSome = true ∧
    parse_readme (render_readme t d i)
      = (lstripNl (pyRstrip d), lstripNl (pyRstrip i)) := by
  have hdesc := extract_render_desc t d i hmt hmd
  have hinstr := extract_render_instr t d i hmt hmd hmi
  have hfinds : ∀ bm em r, bm ≠ [] → em ≠ [] →
      extract_between (render_readme t d i) bm em = some r →
      (findIn bm (render_readme t d i)).isSome = true ∧
      (findIn em (render_readme t d i)).isSome = true := by
    intro bm em r hbm hem hx
    unfold extract_between at hx
    cases h1 : pyFind (render_readme t d i) bm 0 with
    | none => rw [h1] at hx; exact absurd hx (by simp)
    | some s0 =>
      rw [h1] at hx
      dsimp only at hx
      cases h2 : pyFind (render_readme t d i) em (s0 + bm.length) with
      | none => rw [h2] at hx; exact absurd hx (by simp)
      | some e =>
        exact ⟨pyFind_some_isSome _ _ _ _ hbm h1, pyFind_some_isSome _ _ _ _ hem h2⟩
  have hd1 := hfinds _ _ _ (by decide) (by decide) hdesc
  have hi1 := hfinds _ _ _ (by decide) (by decide) hinstr
  refine ⟨hd1.1, hd1.2, hi1.1, hi1.2, ?_⟩
  unfold parse_readme
  rw [hdesc, hinstr]
  rfl

/-- Witness for C2 (amended): the specification's round-trip example,
`"General desc"` / `"Print at 0.2mm"`, comes back verbatim. -/
theorem readme_round_trip_witness :
    parse_readme (render_readme (chars "Widget") (chars "General desc")
      (chars "Print at 0.2mm"))
      = (chars "General desc", chars "Print at 0.2mm") := by
  have h := readme_round_trip (chars "Widget") (chars "General desc")
    (chars "Print at 0.2mm") (by decide) (by decide) (by decide)
  rw [h.2.2.2.2]
  decide

end Modpub
